import Mathlib

/-!
# farbfeld decoder (`image/ff/reader.go`)

A shallow embedding of the Go package `ff` and of the parts of the Go
standard library it calls (`io.ReadFull`, `encoding/binary`, `image.Rect`,
`image.NewRGBA64`, `(*image.RGBA64).SetRGBA64`, `(*image.RGBA64).RGBA64At`).

Conventions.

* A byte is a `Fin 256`.  An `io.Reader` is the list of the bytes it still has
  to deliver; it delivers them all and then reports `io.EOF`.
* The target is linux/amd64.  Go's `int` is the 64-bit signed integer.
  Widths, heights, coordinates and offsets are never negative on such a target
  (`int(uint32)` is value preserving), so they are natural numbers here; the
  one place where 64-bit overflow decides the control flow, `mul3NonNeg`
  inside `image.NewRGBA64`, is modelled on `Int` with explicit `2^64`.
* A Go call either returns or panics: `Outcome`.  Both panics of
  `image.NewRGBA64` are in the model: the one of `pixelBufferLength` when the
  byte length overflows `int`, and the one of `make` (`runtime.makeslice`) when
  the length exceeds the runtime's `maxAlloc`, `2^48` bytes on this target.  A
  `make` that passes this check returns; exhaustion of the machine's memory is
  not a property of the program and is outside the model.
* `Decode` returns the Go pair `(image.Image, error)` as
  `Option RGBA64 × Option Err`; `nil` is `none`.
-/

namespace ff

/-! ## Bytes, errors, outcomes -/

abbrev Byte := Fin 256

/-- Go conversion `uint8(n)`. -/
def uint8 (n : Nat) : Byte := ⟨n % 256, Nat.mod_lt _ (by decide)⟩

/-- The error values the package can return: `io.EOF`, `io.ErrUnexpectedEOF`
and `FormatError(msg)`. -/
inductive Err where
  | EOF
  | ErrUnexpectedEOF
  | FormatError (msg : String)
  deriving DecidableEq, Repr

/-- Method `func (e FormatError) Error() string`. -/
def FormatError.Error (e : String) : String :=
  "farbfeld: invalid format: " ++ e

/-- A Go call returns a value or panics. -/
inductive Outcome (α : Type) where
  | ret (v : α)
  | panic (msg : String)
  deriving DecidableEq, Repr

/-- Constant `ffHeader = "farbfeld"`, as bytes. -/
def ffHeader : List Byte := [0x66, 0x61, 0x72, 0x62, 0x66, 0x65, 0x6c, 0x64]

/-! ## encoding/binary -/

/-- Go `binary.BigEndian.Uint16(b)`:
`uint16(b[1]) | uint16(b[0])<<8`. -/
def Uint16 (b : List Byte) : Nat :=
  (b.getD 1 0).val ||| ((b.getD 0 0).val <<< 8)

/-- Go `binary.BigEndian.Uint32(b)`:
`uint32(b[3]) | uint32(b[2])<<8 | uint32(b[1])<<16 | uint32(b[0])<<24`. -/
def Uint32 (b : List Byte) : Nat :=
  (b.getD 3 0).val ||| ((b.getD 2 0).val <<< 8) ||| ((b.getD 1 0).val <<< 16)
    ||| ((b.getD 0 0).val <<< 24)

/-! ## image/color and image -/

/-- Go `color.RGBA64`: four `uint16` channels. -/
structure Color where
  R : Nat
  G : Nat
  B : Nat
  A : Nat
  deriving DecidableEq, Repr

/-- The zero value `color.RGBA64{}`. -/
def Color.zero : Color := ⟨0, 0, 0, 0⟩

/-- The colour models that occur: `color.RGBAModel` (8 bits per channel) and
`color.RGBA64Model` (16 bits per channel). -/
inductive Model where
  | RGBAModel
  | RGBA64Model
  deriving DecidableEq, Repr

/-- Go `image.Point`. -/
structure Point where
  X : Nat
  Y : Nat
  deriving DecidableEq, Repr

/-- Go `image.Rectangle`. -/
structure Rectangle where
  Min : Point
  Max : Point
  deriving DecidableEq, Repr

/-- Go `image.Rect(x0, y0, x1, y1)`: the corners are put in order. -/
def Rect (x0 y0 x1 y1 : Nat) : Rectangle :=
  let (x0, x1) := if x0 > x1 then (x1, x0) else (x0, x1)
  let (y0, y1) := if y0 > y1 then (y1, y0) else (y0, y1)
  ⟨⟨x0, y0⟩, ⟨x1, y1⟩⟩

/-- Go `r.Dx()`. -/
def Rectangle.Dx (r : Rectangle) : Nat := r.Max.X - r.Min.X

/-- Go `r.Dy()`. -/
def Rectangle.Dy (r : Rectangle) : Nat := r.Max.Y - r.Min.Y

/-- Go `p.In(r)`. -/
def Point.In (p : Point) (r : Rectangle) : Bool :=
  decide (r.Min.X ≤ p.X) && decide (p.X < r.Max.X) &&
    decide (r.Min.Y ≤ p.Y) && decide (p.Y < r.Max.Y)

/-- Go `image.mul3NonNeg(x, y, z)`: the product, or `-1` when an argument is
negative or the product does not fit the 64-bit signed `int`. -/
def mul3NonNeg (x y z : Int) : Int :=
  if x < 0 ∨ y < 0 ∨ z < 0 then -1
  else
    let hi := (x * y) / 2 ^ 64
    let lo := (x * y) % 2 ^ 64
    if hi ≠ 0 then -1
    else
      let hi := (lo * z) / 2 ^ 64
      let lo := (lo * z) % 2 ^ 64
      if hi ≠ 0 then -1
      else
        let a := if lo < 2 ^ 63 then lo else lo - 2 ^ 64
        if a < 0 then -1 else a

/-- Go `image.pixelBufferLength(bytesPerPixel, r, imageTypeName)`. -/
def pixelBufferLength (bytesPerPixel : Nat) (r : Rectangle) (imageTypeName : String) :
    Outcome Nat :=
  let totalLength := mul3NonNeg bytesPerPixel r.Dx r.Dy
  if totalLength < 0 then
    .panic ("image: New" ++ imageTypeName ++ " Rectangle has huge or negative dimensions")
  else .ret totalLength.toNat

/-- Go `image.RGBA64`: the pixel bytes, the stride in bytes and the bounds. -/
structure RGBA64 where
  Pix : List Byte
  Stride : Nat
  Rect : Rectangle
  deriving DecidableEq, Repr

/-- Go runtime constant `maxAlloc`, the largest size `make` accepts:
`1 << heapAddrBits` with `heapAddrBits = 48` on linux/amd64. -/
def maxAlloc : Nat := 2 ^ 48

/-- Go `make([]uint8, n)` for `0 ≤ n` (`runtime.makeslice`): panics when the
size exceeds `maxAlloc`, otherwise returns `n` zero bytes. -/
def makeSlice (n : Nat) : Outcome (List Byte) :=
  if n > maxAlloc then .panic "runtime error: makeslice: len out of range"
  else .ret (List.replicate n 0)

/-- Go `image.NewRGBA64(r)`:
`&RGBA64{Pix: make([]uint8, pixelBufferLength(8, r, "RGBA64")), Stride: 8 * r.Dx(), Rect: r}`. -/
def NewRGBA64 (r : Rectangle) : Outcome RGBA64 :=
  match pixelBufferLength 8 r "RGBA64" with
  | .panic msg => .panic msg
  | .ret n =>
    match makeSlice n with
    | .panic msg => .panic msg
    | .ret pix => .ret { Pix := pix, Stride := 8 * r.Dx, Rect := r }

/-- Go `p.PixOffset(x, y)`. -/
def RGBA64.PixOffset (p : RGBA64) (x y : Nat) : Nat :=
  (y - p.Rect.Min.Y) * p.Stride + (x - p.Rect.Min.X) * 8

/-- Go `p.SetRGBA64(x, y, c)`: a write outside the bounds is ignored. -/
def RGBA64.SetRGBA64 (p : RGBA64) (x y : Nat) (c : Color) : RGBA64 :=
  if !(Point.In ⟨x, y⟩ p.Rect) then p
  else
    let i := p.PixOffset x y
    { p with Pix :=
        ((((((((p.Pix.set i (uint8 (c.R >>> 8))).set (i + 1) (uint8 c.R)).set (i + 2)
          (uint8 (c.G >>> 8))).set (i + 3) (uint8 c.G)).set (i + 4)
          (uint8 (c.B >>> 8))).set (i + 5) (uint8 c.B)).set (i + 6)
          (uint8 (c.A >>> 8))).set (i + 7) (uint8 c.A)) }

/-- Go `p.RGBA64At(x, y)`: the zero colour outside the bounds. -/
def RGBA64.RGBA64At (p : RGBA64) (x y : Nat) : Color :=
  if !(Point.In ⟨x, y⟩ p.Rect) then Color.zero
  else
    let i := p.PixOffset x y
    { R := ((p.Pix.getD i 0).val <<< 8) ||| (p.Pix.getD (i + 1) 0).val
      G := ((p.Pix.getD (i + 2) 0).val <<< 8) ||| (p.Pix.getD (i + 3) 0).val
      B := ((p.Pix.getD (i + 4) 0).val <<< 8) ||| (p.Pix.getD (i + 5) 0).val
      A := ((p.Pix.getD (i + 6) 0).val <<< 8) ||| (p.Pix.getD (i + 7) 0).val }

/-- Go `func (p *RGBA64) ColorModel() color.Model { return color.RGBA64Model }`. -/
def RGBA64.ColorModel (_p : RGBA64) : Model := .RGBA64Model

/-- Go `image.Config`; the zero value has a nil colour model. -/
structure Config where
  ColorModel : Option Model
  Width : Nat
  Height : Nat
  deriving DecidableEq, Repr

/-- The zero value `image.Config{}`. -/
def Config.zero : Config := ⟨none, 0, 0⟩

/-! ## The decoder -/

/-- Go `type decoder struct`: the reader is the list of bytes still unread,
`tmp` is the scratch array `[3 * 256]byte`. -/
structure decoder where
  r : List Byte
  img : Option RGBA64
  width : Nat
  height : Nat
  tmp : List Byte
  deriving DecidableEq, Repr

/-- Go `io.ReadFull(d.r, d.tmp[:n])`: copies up to `n` bytes into the front of
`tmp`; `io.EOF` when nothing was read, `io.ErrUnexpectedEOF` when fewer than
`n` bytes were. -/
def readFull (d : decoder) (n : Nat) : decoder × Option Err :=
  let got := d.r.take n
  let d1 := { d with r := d.r.drop n, tmp := got ++ d.tmp.drop got.length }
  if got.length = n then (d1, none)
  else if got.length = 0 then (d1, some .EOF)
  else (d1, some .ErrUnexpectedEOF)

/-- Method `func (d *decoder) checkHeader() error`. -/
def checkHeader (d : decoder) : decoder × Option Err :=
  match readFull d ffHeader.length with
  | (d, some err) => (d, some err)
  | (d, none) =>
    if d.tmp.take ffHeader.length ≠ ffHeader then
      (d, some (.FormatError "not a farbfeld file"))
    else (d, none)

/-- Method `func (d *decoder) parsePixel() (color.RGBA64, error)`. -/
def parsePixel (d : decoder) : decoder × Color × Option Err :=
  match readFull d 8 with
  | (d, some err) => (d, Color.zero, some err)
  | (d, none) =>
    let red := Uint16 (d.tmp.take 2)
    let green := Uint16 ((d.tmp.drop 2).take 2)
    let blue := Uint16 ((d.tmp.drop 4).take 2)
    let alpha := Uint16 ((d.tmp.drop 6).take 2)
    (d, { R := red, G := green, B := blue, A := alpha }, none)

/-- Method `func (d *decoder) parseWH() error`. -/
def parseWH (d : decoder) : decoder × Option Err :=
  match readFull d 4 with
  | (d, some err) => (d, some err)
  | (d, none) =>
    let width := Uint32 (d.tmp.take 4)
    match readFull d 4 with
    | (d, some err) => (d, some err)
    | (d, none) =>
      let height := Uint32 (d.tmp.take 4)
      ({ d with width := width, height := height }, none)

/-- The inner loop of `Decode`,
`for row := row; row < d.height; row++ { ... rgba.SetRGBA64(row, col, pixel) }`,
with `n` the number of iterations that remain. -/
def rowLoop (col : Nat) : Nat → Nat → decoder → RGBA64 → decoder × RGBA64 × Option Err
  | 0, _, d, rgba => (d, rgba, none)
  | n + 1, row, d, rgba =>
    match parsePixel d with
    | (d, _, some err) => (d, rgba, some err)
    | (d, pixel, none) => rowLoop col n (row + 1) d (rgba.SetRGBA64 row col pixel)

/-- The outer loop of `Decode`, `for col := col; col < d.width; col++ { ... }`,
with `n` the number of iterations that remain. -/
def colLoop : Nat → Nat → decoder → RGBA64 → decoder × RGBA64 × Option Err
  | 0, _, d, rgba => (d, rgba, none)
  | n + 1, col, d, rgba =>
    match rowLoop col d.height 0 d rgba with
    | (d, rgba, some err) => (d, rgba, some err)
    | (d, rgba, none) => colLoop n (col + 1) d rgba

/-- A fresh decoder `&decoder{r: r}`. -/
def newDecoder (r : List Byte) : decoder :=
  { r := r, img := none, width := 0, height := 0, tmp := List.replicate (3 * 256) 0 }

/-- Function `Decode` together with the decoder state it leaves behind. -/
def DecodeRun (r : List Byte) : Outcome (decoder × Option RGBA64 × Option Err) :=
  let d := newDecoder r
  match checkHeader d with
  | (d, some err) =>
    .ret (d, none, some (if err = .EOF then .ErrUnexpectedEOF else err))
  | (d, none) =>
    match readFull d 8 with
    | (d, some err) => .ret (d, none, some err)
    | (d, none) =>
      let d := { d with width := Uint32 (d.tmp.take 4) }
      let d := { d with height := Uint32 ((d.tmp.drop 4).take 4) }
      match NewRGBA64 (Rect 0 0 d.width d.height) with
      | .panic msg => .panic msg
      | .ret rgba =>
        let d := { d with img := some rgba }
        match colLoop d.width 0 d rgba with
        | (d, _, some err) => .ret (d, none, some err)
        | (d, rgba, none) => .ret ({ d with img := some rgba }, some rgba, none)

/-- Function `func Decode(r io.Reader) (image.Image, error)`. -/
def Decode (r : List Byte) : Outcome (Option RGBA64 × Option Err) :=
  match DecodeRun r with
  | .ret (_, res) => .ret res
  | .panic msg => .panic msg

/-- Function `DecodeConfig` together with the decoder state it leaves behind. -/
def DecodeConfigRun (r : List Byte) : decoder × Config × Option Err :=
  let d := newDecoder r
  match checkHeader d with
  | (d, some err) =>
    (d, Config.zero, some (if err = .EOF then .ErrUnexpectedEOF else err))
  | (d, none) =>
    match parseWH d with
    | (d, some err) =>
      (d, Config.zero, some (if err = .EOF then .ErrUnexpectedEOF else err))
    | (d, none) =>
      (d, { ColorModel := some .RGBAModel, Width := d.width, Height := d.height }, none)

/-- Function `func DecodeConfig(r io.Reader) (image.Config, error)`. -/
def DecodeConfig (r : List Byte) : Config × Option Err :=
  (DecodeConfigRun r).2

/-! ## Reference encodings used to state the properties -/

/-- Big-endian encoding of an unsigned 32-bit value, most significant byte
first (the wire format of the width and height fields). -/
def be32 (v : Nat) : List Byte :=
  [uint8 (v / 2 ^ 24), uint8 (v / 2 ^ 16), uint8 (v / 2 ^ 8), uint8 v]

/-- Big-endian encoding of an unsigned 16-bit value. -/
def be16 (v : Nat) : List Byte := [uint8 (v / 2 ^ 8), uint8 v]

/-- The pixel record number `k` of the pixel data `data`: the bytes
`8k .. 8k+7` read as four big-endian 16-bit values R, G, B, A. -/
def recordAt (data : List Byte) (k : Nat) : Color :=
  { R := 256 * (data.getD (8 * k) 0).val + (data.getD (8 * k + 1) 0).val
    G := 256 * (data.getD (8 * k + 2) 0).val + (data.getD (8 * k + 3) 0).val
    B := 256 * (data.getD (8 * k + 4) 0).val + (data.getD (8 * k + 5) 0).val
    A := 256 * (data.getD (8 * k + 6) 0).val + (data.getD (8 * k + 7) 0).val }

/-- The 8-byte record of one pixel: R, G, B, A, each a big-endian 16-bit
value. -/
def encodePixel (c : Color) : List Byte :=
  be16 c.R ++ be16 c.G ++ be16 c.B ++ be16 c.A

/-- The farbfeld encoding of a `w` by `h` grid, following the wire format:
magic, big-endian width, big-endian height, then the pixels in row-major
order, for `y` in `[0, h)`, for `x` in `[0, w)`. -/
def Encode (w h : Nat) (grid : Nat → Nat → Color) : List Byte :=
  ffHeader ++ be32 w ++ be32 h
    ++ (List.range h).flatMap (fun y => (List.range w).flatMap (fun x => encodePixel (grid x y)))

/-- The width a stream declares: bytes 8..11 as a big-endian unsigned 32-bit
value. -/
def declaredWidth (s : List Byte) : Nat :=
  2 ^ 24 * (s.getD 8 0).val + 2 ^ 16 * (s.getD 9 0).val + 2 ^ 8 * (s.getD 10 0).val
    + (s.getD 11 0).val

/-- The height a stream declares: bytes 12..15 as a big-endian unsigned 32-bit
value. -/
def declaredHeight (s : List Byte) : Nat :=
  2 ^ 24 * (s.getD 12 0).val + 2 ^ 16 * (s.getD 13 0).val + 2 ^ 8 * (s.getD 14 0).val
    + (s.getD 15 0).val

/-- The message of the panic that aborts `image.NewRGBA64` when the buffer
needs `n > maxAlloc` bytes: the one of `pixelBufferLength` when `n` does not
fit the 64-bit `int`, the one of `make` otherwise. -/
def allocPanic (n : Nat) : String :=
  if 2 ^ 63 ≤ n then "image: NewRGBA64 Rectangle has huge or negative dimensions"
  else "runtime error: makeslice: len out of range"

/-- The shape of the buffer `image.NewRGBA64(image.Rect(0, 0, w, h))` returns
and every `SetRGBA64` keeps: bounds `(0,0)-(w,h)`, stride `8w`, `8wh` bytes. -/
def RGBA64.WF (p : RGBA64) (w h : Nat) : Prop :=
  p.Rect = ⟨⟨0, 0⟩, ⟨w, h⟩⟩ ∧ p.Stride = 8 * w ∧ p.Pix.length = 8 * w * h

/-! ## Arithmetic of the big-endian readers -/

theorem lor_shiftLeft_eq (a b i : Nat) (h : b < 2 ^ i) :
    b ||| (a <<< i) = 2 ^ i * a + b := by
  rw [Nat.lor_comm, Nat.shiftLeft_eq, Nat.mul_comm, ← Nat.mul_add_lt_is_or h]

theorem shiftLeft_lor_eq (a b i : Nat) (h : b < 2 ^ i) :
    (a <<< i) ||| b = 2 ^ i * a + b := by
  rw [Nat.shiftLeft_eq, Nat.mul_comm, ← Nat.mul_add_lt_is_or h]

theorem Uint16_cons (b0 b1 : Byte) (l : List Byte) :
    Uint16 (b0 :: b1 :: l) = 256 * b0.val + b1.val := by
  have h1 := b1.isLt
  simp only [Uint16, List.getD_cons_zero, List.getD_cons_succ]
  rw [lor_shiftLeft_eq _ _ 8 (by omega)]
  omega

theorem Uint32_cons (b0 b1 b2 b3 : Byte) (l : List Byte) :
    Uint32 (b0 :: b1 :: b2 :: b3 :: l)
      = 2 ^ 24 * b0.val + 2 ^ 16 * b1.val + 2 ^ 8 * b2.val + b3.val := by
  have h0 := b0.isLt
  have h1 := b1.isLt
  have h2 := b2.isLt
  have h3 := b3.isLt
  simp only [Uint32, List.getD_cons_zero, List.getD_cons_succ]
  rw [lor_shiftLeft_eq _ _ 8 (by omega), lor_shiftLeft_eq _ _ 16 (by omega),
    lor_shiftLeft_eq _ _ 24 (by omega)]
  omega

theorem Uint32_be32 (v : Nat) (hv : v < 2 ^ 32) (l : List Byte) :
    Uint32 (be32 v ++ l) = v := by
  simp only [be32, List.cons_append, List.nil_append, Uint32_cons, uint8]
  omega

/-! ## Reading from the stream -/

theorem readFull_of_le (d : decoder) (n : Nat) (h : n ≤ d.r.length) :
    readFull d n
      = ({ d with r := d.r.drop n, tmp := d.r.take n ++ d.tmp.drop n }, none) := by
  have hl : (d.r.take n).length = n := by rw [List.length_take]; omega
  simp only [readFull, hl, if_true]

theorem readFull_of_lt (d : decoder) (n : Nat) (h : d.r.length < n) :
    readFull d n
      = ({ d with r := [], tmp := d.r ++ d.tmp.drop d.r.length },
          some (if d.r.length = 0 then .EOF else .ErrUnexpectedEOF)) := by
  have ht : d.r.take n = d.r := List.take_of_length_le (by omega)
  have hd : d.r.drop n = [] := List.drop_of_length_le (by omega)
  have hne : ¬ d.r.length = n := by omega
  simp only [readFull, ht, hd, hne, if_false]
  split <;> rfl

theorem checkHeader_of_lt (d : decoder) (h : d.r.length < 8) :
    checkHeader d
      = ({ d with r := [], tmp := d.r ++ d.tmp.drop d.r.length },
          some (if d.r.length = 0 then .EOF else .ErrUnexpectedEOF)) := by
  simp only [checkHeader, ffHeader, List.length_cons, List.length_nil]
  rw [readFull_of_lt d _ (by omega)]

theorem checkHeader_of_le (d : decoder) (h : 8 ≤ d.r.length) :
    checkHeader d
      = ({ d with r := d.r.drop 8, tmp := d.r.take 8 ++ d.tmp.drop 8 },
          if d.r.take 8 ≠ ffHeader then some (.FormatError "not a farbfeld file")
          else none) := by
  have hl : (d.r.take 8).length = 8 := by rw [List.length_take]; omega
  have ht : (d.r.take 8 ++ d.tmp.drop 8).take 8 = d.r.take 8 := List.take_left' hl
  simp only [checkHeader, ffHeader, List.length_cons, List.length_nil]
  rw [readFull_of_le d _ (by omega)]
  simp only [Nat.reduceAdd, ht]
  split <;> rfl

theorem parseWH_of_le (d : decoder) (h : 8 ≤ d.r.length) :
    parseWH d
      = ({ d with r := d.r.drop 8
                  tmp := (d.r.drop 4).take 4 ++ (d.r.take 4 ++ d.tmp.drop 4).drop 4
                  width := Uint32 (d.r.take 4)
                  height := Uint32 ((d.r.drop 4).take 4) }, none) := by
  have hl : (d.r.take 4).length = 4 := by rw [List.length_take]; omega
  have hl2 : ((d.r.drop 4).take 4).length = 4 := by
    rw [List.length_take, List.length_drop]; omega
  have ht : (d.r.take 4 ++ d.tmp.drop 4).take 4 = d.r.take 4 := List.take_left' hl
  have ht2 : ((d.r.drop 4).take 4 ++ (d.r.take 4 ++ d.tmp.drop 4).drop 4).take 4
      = (d.r.drop 4).take 4 := List.take_left' hl2
  simp only [parseWH]
  rw [readFull_of_le d 4 (by omega)]
  simp only []
  rw [readFull_of_le _ 4 (by simp only [List.length_drop]; omega)]
  simp only [ht, ht2, List.drop_drop]

theorem parseWH_of_lt (d : decoder) (h : d.r.length < 8) :
    (parseWH d).2 = some (if d.r.length = 0 ∨ d.r.length = 4 then .EOF
      else .ErrUnexpectedEOF) := by
  simp only [parseWH]
  by_cases h4 : d.r.length < 4
  · rw [readFull_of_lt d 4 h4]
    by_cases h0 : d.r.length = 0
    · rw [if_pos h0, if_pos (Or.inl h0)]
    · have h1 : ¬ (d.r.length = 0 ∨ d.r.length = 4) := by omega
      rw [if_neg h0, if_neg h1]
  · rw [readFull_of_le d 4 (by omega)]
    simp only []
    rw [readFull_of_lt _ 4 (by simp only [List.length_drop]; omega)]
    simp only [List.length_drop]
    by_cases h0 : d.r.length = 4
    · have h2 : d.r.length - 4 = 0 := by omega
      rw [if_pos h2, if_pos (Or.inr h0)]
    · have h1 : ¬ (d.r.length = 0 ∨ d.r.length = 4) := by omega
      have h2 : ¬ d.r.length - 4 = 0 := by omega
      rw [if_neg h2, if_neg h1]

theorem Decode_of_lt_header (s : List Byte) (h : s.length < 8) :
    Decode s = .ret (none, some .ErrUnexpectedEOF) := by
  have hc := checkHeader_of_lt (newDecoder s) h
  simp only [Decode, DecodeRun, hc]
  split <;> rfl

theorem DecodeConfig_of_lt_header (s : List Byte) (h : s.length < 8) :
    DecodeConfig s = (Config.zero, some .ErrUnexpectedEOF) := by
  have hc := checkHeader_of_lt (newDecoder s) h
  simp only [DecodeConfig, DecodeConfigRun, hc]
  split <;> rfl

theorem Decode_of_bad_header (s : List Byte) (h : 8 ≤ s.length) (hne : s.take 8 ≠ ffHeader) :
    Decode s = .ret (none, some (.FormatError "not a farbfeld file")) := by
  have hc := checkHeader_of_le (newDecoder s) h
  have hne2 : (newDecoder s).r.take 8 ≠ ffHeader := hne
  rw [if_pos hne2] at hc
  simp only [Decode, DecodeRun, hc]
  rfl

theorem DecodeConfig_of_bad_header (s : List Byte) (h : 8 ≤ s.length)
    (hne : s.take 8 ≠ ffHeader) :
    DecodeConfig s = (Config.zero, some (.FormatError "not a farbfeld file")) := by
  have hc := checkHeader_of_le (newDecoder s) h
  have hne2 : (newDecoder s).r.take 8 ≠ ffHeader := hne
  rw [if_pos hne2] at hc
  simp only [DecodeConfig, DecodeConfigRun, hc]
  rfl

theorem checkHeader_of_magic (d : decoder) (h : d.r.take 8 = ffHeader) :
    checkHeader d
      = ({ d with r := d.r.drop 8, tmp := ffHeader ++ d.tmp.drop 8 }, none) := by
  have hlen : 8 ≤ d.r.length := by
    have := congrArg List.length h
    rw [List.length_take] at this
    simp only [ffHeader, List.length_cons, List.length_nil] at this
    omega
  rw [checkHeader_of_le d hlen, h]
  simp

/-! ## The pixel buffer -/

theorem getD_set_ne {α : Type} (l : List α) (i j : Nat) (a d : α) (h : i ≠ j) :
    (l.set i a).getD j d = l.getD j d := by
  simp only [List.getD_eq_getElem?_getD, List.getElem?_set, if_neg h]

theorem getD_set8_other (l : List Byte) (i j : Nat) (a0 a1 a2 a3 a4 a5 a6 a7 : Byte)
    (h : j < i ∨ i + 8 ≤ j) :
    ((((((((l.set i a0).set (i + 1) a1).set (i + 2) a2).set (i + 3) a3).set (i + 4)
      a4).set (i + 5) a5).set (i + 6) a6).set (i + 7) a7).getD j 0 = l.getD j 0 := by
  rw [getD_set_ne _ _ _ _ _ (by omega), getD_set_ne _ _ _ _ _ (by omega),
    getD_set_ne _ _ _ _ _ (by omega), getD_set_ne _ _ _ _ _ (by omega),
    getD_set_ne _ _ _ _ _ (by omega), getD_set_ne _ _ _ _ _ (by omega),
    getD_set_ne _ _ _ _ _ (by omega), getD_set_ne _ _ _ _ _ (by omega)]

theorem getD_set8_same (l : List Byte) (i : Nat) (a0 a1 a2 a3 a4 a5 a6 a7 : Byte)
    (h : i + 8 ≤ l.length) (k : Nat) (hk : k < 8) :
    ((((((((l.set i a0).set (i + 1) a1).set (i + 2) a2).set (i + 3) a3).set (i + 4)
      a4).set (i + 5) a5).set (i + 6) a6).set (i + 7) a7).getD (i + k) 0
      = [a0, a1, a2, a3, a4, a5, a6, a7].getD k 0 := by
  have : k = 0 ∨ k = 1 ∨ k = 2 ∨ k = 3 ∨ k = 4 ∨ k = 5 ∨ k = 6 ∨ k = 7 := by omega
  have h0 : i < l.length := by omega
  have h1 : i + 1 < l.length := by omega
  have h2 : i + 2 < l.length := by omega
  have h3 : i + 3 < l.length := by omega
  have h4 : i + 4 < l.length := by omega
  have h5 : i + 5 < l.length := by omega
  have h6 : i + 6 < l.length := by omega
  have h7 : i + 7 < l.length := by omega
  rcases this with rfl | rfl | rfl | rfl | rfl | rfl | rfl | rfl <;>
    simp [List.getD_eq_getElem?_getD, List.getElem?_set, h0, h1, h2, h3, h4, h5, h6, h7]

theorem channel_roundtrip (c : Nat) (hc : c < 65536) :
    ((uint8 (c >>> 8)).val <<< 8) ||| (uint8 c).val = c := by
  have h1 : (uint8 c).val < 2 ^ 8 := (uint8 c).isLt
  rw [shiftLeft_lor_eq _ _ 8 h1]
  simp only [uint8, Nat.shiftRight_eq_div_pow]
  omega

theorem Rect_zero (w h : Nat) : Rect 0 0 w h = ⟨⟨0, 0⟩, ⟨w, h⟩⟩ := by
  simp [Rect]

theorem In_zero_rect (x y w h : Nat) :
    Point.In ⟨x, y⟩ ⟨⟨0, 0⟩, ⟨w, h⟩⟩ = true ↔ x < w ∧ y < h := by
  simp [Point.In]

theorem offset_bound (x y w h : Nat) (hx : x < w) (hy : y < h) :
    y * (8 * w) + x * 8 + 8 ≤ 8 * w * h := by
  have h1 : (y + 1) * (8 * w) ≤ h * (8 * w) := Nat.mul_le_mul_right _ hy
  have h2 : (y + 1) * (8 * w) = y * (8 * w) + 8 * w := by ring
  have h3 : h * (8 * w) = 8 * w * h := by ring
  omega

theorem offset_disjoint (x y x1 y1 w : Nat) (hx : x < w) (hx1 : x1 < w)
    (hne : ¬ (x1 = x ∧ y1 = y)) :
    y1 * (8 * w) + x1 * 8 + 8 ≤ y * (8 * w) + x * 8
      ∨ y * (8 * w) + x * 8 + 8 ≤ y1 * (8 * w) + x1 * 8 := by
  rcases Nat.lt_trichotomy y y1 with hlt | heq | hgt
  · right
    have h1 : (y + 1) * (8 * w) ≤ y1 * (8 * w) := Nat.mul_le_mul_right _ hlt
    have h2 : (y + 1) * (8 * w) = y * (8 * w) + 8 * w := by ring
    omega
  · subst heq
    omega
  · left
    have h1 : (y1 + 1) * (8 * w) ≤ y * (8 * w) := Nat.mul_le_mul_right _ hgt
    have h2 : (y1 + 1) * (8 * w) = y1 * (8 * w) + 8 * w := by ring
    omega

theorem SetRGBA64_WF (p : RGBA64) (w h x y : Nat) (c : Color) (hp : p.WF w h) :
    (p.SetRGBA64 x y c).WF w h := by
  obtain ⟨h1, h2, h3⟩ := hp
  unfold RGBA64.SetRGBA64
  split
  · exact ⟨h1, h2, h3⟩
  · refine ⟨h1, h2, ?_⟩
    simp only [List.length_set]
    exact h3

theorem SetRGBA64_of_not_in (p : RGBA64) (w h x y : Nat) (c : Color) (hp : p.WF w h)
    (hout : ¬ (x < w ∧ y < h)) : p.SetRGBA64 x y c = p := by
  have hIn : Point.In ⟨x, y⟩ p.Rect = false := by
    rw [hp.1]
    cases hb : Point.In ⟨x, y⟩ ⟨⟨0, 0⟩, ⟨w, h⟩⟩
    · rfl
    · exact absurd ((In_zero_rect x y w h).1 hb) hout
  simp only [RGBA64.SetRGBA64, hIn, Bool.not_false, if_true]

theorem RGBA64At_of_not_in (p : RGBA64) (w h x y : Nat) (hp : p.WF w h)
    (hout : ¬ (x < w ∧ y < h)) : p.RGBA64At x y = Color.zero := by
  have hIn : Point.In ⟨x, y⟩ p.Rect = false := by
    rw [hp.1]
    cases hb : Point.In ⟨x, y⟩ ⟨⟨0, 0⟩, ⟨w, h⟩⟩
    · rfl
    · exact absurd ((In_zero_rect x y w h).1 hb) hout
  simp only [RGBA64.RGBA64At, hIn, Bool.not_false, if_true]

theorem SetRGBA64_of_in (p : RGBA64) (w h x y : Nat) (c : Color) (hp : p.WF w h)
    (hin : x < w ∧ y < h) :
    p.SetRGBA64 x y c
      = { p with Pix :=
            ((((((((p.Pix.set (y * (8 * w) + x * 8) (uint8 (c.R >>> 8))).set
              (y * (8 * w) + x * 8 + 1) (uint8 c.R)).set (y * (8 * w) + x * 8 + 2)
              (uint8 (c.G >>> 8))).set (y * (8 * w) + x * 8 + 3) (uint8 c.G)).set
              (y * (8 * w) + x * 8 + 4) (uint8 (c.B >>> 8))).set (y * (8 * w) + x * 8 + 5)
              (uint8 c.B)).set (y * (8 * w) + x * 8 + 6) (uint8 (c.A >>> 8))).set
              (y * (8 * w) + x * 8 + 7) (uint8 c.A)) } := by
  have hIn : Point.In ⟨x, y⟩ ⟨⟨0, 0⟩, ⟨w, h⟩⟩ = true := (In_zero_rect x y w h).2 hin
  simp only [RGBA64.SetRGBA64, RGBA64.PixOffset, hp.1, hp.2.1, hIn, Bool.not_true,
    Bool.false_eq_true, if_false, Nat.sub_zero]

theorem RGBA64At_of_in (p : RGBA64) (w h x y : Nat) (hp : p.WF w h) (hin : x < w ∧ y < h) :
    p.RGBA64At x y
      = { R := ((p.Pix.getD (y * (8 * w) + x * 8) 0).val <<< 8)
            ||| (p.Pix.getD (y * (8 * w) + x * 8 + 1) 0).val
          G := ((p.Pix.getD (y * (8 * w) + x * 8 + 2) 0).val <<< 8)
            ||| (p.Pix.getD (y * (8 * w) + x * 8 + 3) 0).val
          B := ((p.Pix.getD (y * (8 * w) + x * 8 + 4) 0).val <<< 8)
            ||| (p.Pix.getD (y * (8 * w) + x * 8 + 5) 0).val
          A := ((p.Pix.getD (y * (8 * w) + x * 8 + 6) 0).val <<< 8)
            ||| (p.Pix.getD (y * (8 * w) + x * 8 + 7) 0).val } := by
  have hIn : Point.In ⟨x, y⟩ ⟨⟨0, 0⟩, ⟨w, h⟩⟩ = true := (In_zero_rect x y w h).2 hin
  simp only [RGBA64.RGBA64At, RGBA64.PixOffset, hp.1, hp.2.1, hIn, Bool.not_true,
    Bool.false_eq_true, if_false, Nat.sub_zero]

theorem RGBA64At_SetRGBA64 (p : RGBA64) (w h x y x1 y1 : Nat) (c : Color) (hp : p.WF w h)
    (hR : c.R < 65536) (hG : c.G < 65536) (hB : c.B < 65536) (hA : c.A < 65536) :
    (p.SetRGBA64 x y c).RGBA64At x1 y1
      = if x < w ∧ y < h ∧ x1 = x ∧ y1 = y then c else p.RGBA64At x1 y1 := by
  have hp2 := SetRGBA64_WF p w h x y c hp
  by_cases hin : x < w ∧ y < h
  · have hb := offset_bound x y w h hin.1 hin.2
    by_cases heq : x1 = x ∧ y1 = y
    · obtain ⟨rfl, rfl⟩ := heq
      rw [if_pos ⟨hin.1, hin.2, rfl, rfl⟩]
      have hlen : y1 * (8 * w) + x1 * 8 + 8 ≤ p.Pix.length := by rw [hp.2.2]; exact hb
      have e := getD_set8_same p.Pix (y1 * (8 * w) + x1 * 8)
        (uint8 (c.R >>> 8)) (uint8 c.R) (uint8 (c.G >>> 8)) (uint8 c.G)
        (uint8 (c.B >>> 8)) (uint8 c.B) (uint8 (c.A >>> 8)) (uint8 c.A) hlen
      have e0 := e 0 (by omega)
      have e1 := e 1 (by omega)
      have e2 := e 2 (by omega)
      have e3 := e 3 (by omega)
      have e4 := e 4 (by omega)
      have e5 := e 5 (by omega)
      have e6 := e 6 (by omega)
      have e7 := e 7 (by omega)
      simp only [Nat.add_zero, List.getD_cons_zero, List.getD_cons_succ] at e0 e1 e2 e3 e4 e5 e6 e7
      rw [RGBA64At_of_in _ w h x1 y1 hp2 hin, SetRGBA64_of_in p w h x1 y1 c hp hin]
      simp only []
      rw [e0, e1, e2, e3, e4, e5, e6, e7, channel_roundtrip _ hR, channel_roundtrip _ hG,
        channel_roundtrip _ hB, channel_roundtrip _ hA]
    · have hneg : ¬ (x < w ∧ y < h ∧ x1 = x ∧ y1 = y) := fun hh => heq ⟨hh.2.2.1, hh.2.2.2⟩
      rw [if_neg hneg]
      by_cases hin1 : x1 < w ∧ y1 < h
      · have hd := offset_disjoint x y x1 y1 w hin.1 hin1.1 heq
        have o : ∀ k, k < 8 →
            ((((((((p.Pix.set (y * (8 * w) + x * 8) (uint8 (c.R >>> 8))).set
              (y * (8 * w) + x * 8 + 1) (uint8 c.R)).set (y * (8 * w) + x * 8 + 2)
              (uint8 (c.G >>> 8))).set (y * (8 * w) + x * 8 + 3) (uint8 c.G)).set
              (y * (8 * w) + x * 8 + 4) (uint8 (c.B >>> 8))).set (y * (8 * w) + x * 8 + 5)
              (uint8 c.B)).set (y * (8 * w) + x * 8 + 6) (uint8 (c.A >>> 8))).set
              (y * (8 * w) + x * 8 + 7) (uint8 c.A)).getD (y1 * (8 * w) + x1 * 8 + k) 0
              = p.Pix.getD (y1 * (8 * w) + x1 * 8 + k) 0 := by
          intro k hk
          exact getD_set8_other _ _ _ _ _ _ _ _ _ _ _ (by omega)
        have o0 := o 0 (by omega)
        simp only [Nat.add_zero] at o0
        rw [RGBA64At_of_in _ w h x1 y1 hp2 hin1, RGBA64At_of_in _ w h x1 y1 hp hin1,
          SetRGBA64_of_in p w h x y c hp hin]
        simp only []
        rw [o0, o 1 (by omega), o 2 (by omega), o 3 (by omega), o 4 (by omega),
          o 5 (by omega), o 6 (by omega), o 7 (by omega)]
      · rw [RGBA64At_of_not_in _ w h x1 y1 hp2 hin1,
          RGBA64At_of_not_in _ w h x1 y1 hp hin1]
  · have hneg : ¬ (x < w ∧ y < h ∧ x1 = x ∧ y1 = y) := fun hh => hin ⟨hh.1, hh.2.1⟩
    rw [if_neg hneg, SetRGBA64_of_not_in p w h x y c hp hin]

/-! ## One pixel record -/

theorem exists_eight (l : List Byte) (h : 8 ≤ l.length) :
    ∃ b0 b1 b2 b3 b4 b5 b6 b7 rest, l = b0 :: b1 :: b2 :: b3 :: b4 :: b5 :: b6 :: b7 :: rest := by
  match l, h with
  | b0 :: b1 :: b2 :: b3 :: b4 :: b5 :: b6 :: b7 :: rest, _ =>
    exact ⟨b0, b1, b2, b3, b4, b5, b6, b7, rest, rfl⟩

theorem recordAt_cons (b0 b1 b2 b3 b4 b5 b6 b7 : Byte) (rest : List Byte) :
    recordAt (b0 :: b1 :: b2 :: b3 :: b4 :: b5 :: b6 :: b7 :: rest) 0
      = { R := 256 * b0.val + b1.val, G := 256 * b2.val + b3.val
          B := 256 * b4.val + b5.val, A := 256 * b6.val + b7.val } := by
  simp only [recordAt, Nat.mul_zero, Nat.zero_add, List.getD_cons_zero, List.getD_cons_succ]

theorem parsePixel_cons (d : decoder) (b0 b1 b2 b3 b4 b5 b6 b7 : Byte) (rest : List Byte)
    (hr : d.r = b0 :: b1 :: b2 :: b3 :: b4 :: b5 :: b6 :: b7 :: rest) :
    parsePixel d
      = ({ d with r := rest
                  tmp := [b0, b1, b2, b3, b4, b5, b6, b7] ++ d.tmp.drop 8 },
          { R := 256 * b0.val + b1.val, G := 256 * b2.val + b3.val
            B := 256 * b4.val + b5.val, A := 256 * b6.val + b7.val }, none) := by
  have hlen : 8 ≤ d.r.length := by rw [hr]; simp
  simp only [parsePixel]
  rw [readFull_of_le d 8 hlen, hr]
  simp only [List.take_succ_cons, List.take_zero, List.drop_succ_cons, List.drop_zero,
    List.cons_append, List.nil_append, Uint16_cons]

theorem parsePixel_of_le (d : decoder) (h : 8 ≤ d.r.length) :
    parsePixel d
      = ({ d with r := d.r.drop 8, tmp := d.r.take 8 ++ d.tmp.drop 8 },
          recordAt d.r 0, none) := by
  obtain ⟨b0, b1, b2, b3, b4, b5, b6, b7, rest, hr⟩ := exists_eight d.r h
  rw [parsePixel_cons d b0 b1 b2 b3 b4 b5 b6 b7 rest hr, hr, recordAt_cons]
  simp only [List.take_succ_cons, List.take_zero, List.drop_succ_cons, List.drop_zero]

theorem parsePixel_of_lt (d : decoder) (h : d.r.length < 8) :
    parsePixel d
      = ({ d with r := [], tmp := d.r ++ d.tmp.drop d.r.length }, Color.zero,
          some (if d.r.length = 0 then .EOF else .ErrUnexpectedEOF)) := by
  simp only [parsePixel]
  rw [readFull_of_lt d 8 h]

theorem getD_drop (l : List Byte) (i j : Nat) : (l.drop i).getD j 0 = l.getD (i + j) 0 := by
  simp only [List.getD_eq_getElem?_getD, List.getElem?_drop]

theorem recordAt_drop (l : List Byte) (m k : Nat) :
    recordAt (l.drop (8 * m)) k = recordAt l (m + k) := by
  simp only [recordAt, getD_drop, Nat.mul_add, Nat.add_assoc]

theorem recordAt_lt (l : List Byte) (k : Nat) :
    (recordAt l k).R < 65536 ∧ (recordAt l k).G < 65536 ∧ (recordAt l k).B < 65536
      ∧ (recordAt l k).A < 65536 := by
  simp only [recordAt]
  refine ⟨?_, ?_, ?_, ?_⟩ <;>
  · have h1 := (l.getD (8 * k) 0).isLt
    have h2 := (l.getD (8 * k + 1) 0).isLt
    have h3 := (l.getD (8 * k + 2) 0).isLt
    have h4 := (l.getD (8 * k + 3) 0).isLt
    have h5 := (l.getD (8 * k + 4) 0).isLt
    have h6 := (l.getD (8 * k + 5) 0).isLt
    have h7 := (l.getD (8 * k + 6) 0).isLt
    have h8 := (l.getD (8 * k + 7) 0).isLt
    omega

/-! ## The two loops of `Decode` -/

theorem rowLoop_ok (col w h : Nat) :
    ∀ (n row : Nat) (d : decoder) (p : RGBA64), 8 * n ≤ d.r.length → p.WF w h →
      ∃ d1 p1, rowLoop col n row d p = (d1, p1, none) ∧ d1.r = d.r.drop (8 * n)
        ∧ d1.height = d.height ∧ d1.width = d.width ∧ p1.WF w h
        ∧ ∀ x y, p1.RGBA64At x y
            = if y = col ∧ row ≤ x ∧ x < row + n ∧ x < w ∧ col < h
              then recordAt d.r (x - row) else p.RGBA64At x y := by
  intro n
  induction n with
  | zero =>
    intro row d p _ hp
    refine ⟨d, p, rfl, by simp, rfl, rfl, hp, ?_⟩
    intro x y
    have hneg : ¬ (y = col ∧ row ≤ x ∧ x < row + 0 ∧ x < w ∧ col < h) := by omega
    rw [if_neg hneg]
  | succ n ih =>
    intro row d p hlen hp
    have h8 : 8 ≤ d.r.length := by omega
    have hp1 := SetRGBA64_WF p w h row col (recordAt d.r 0) hp
    obtain ⟨d1, p1, hrun, hr, hh, hw, hwf, hpix⟩ :=
      ih (row + 1) { d with r := d.r.drop 8, tmp := d.r.take 8 ++ d.tmp.drop 8 }
        (p.SetRGBA64 row col (recordAt d.r 0))
        (by simp only [List.length_drop]; omega) hp1
    refine ⟨d1, p1, ?_, ?_, hh, hw, hwf, ?_⟩
    · simp only [rowLoop, parsePixel_of_le d h8]
      exact hrun
    · rw [hr]
      simp only [List.drop_drop]
      congr 1
      omega
    · intro x y
      obtain ⟨cR, cG, cB, cA⟩ := recordAt_lt d.r 0
      rw [hpix x y, RGBA64At_SetRGBA64 p w h row col x y _ hp cR cG cB cA]
      simp only []
      by_cases hnew : y = col ∧ row + 1 ≤ x ∧ x < row + 1 + n ∧ x < w ∧ col < h
      · have hall : y = col ∧ row ≤ x ∧ x < row + (n + 1) ∧ x < w ∧ col < h := by omega
        rw [if_pos hnew, if_pos hall]
        have e := recordAt_drop d.r 1 (x - (row + 1))
        rw [Nat.mul_one] at e
        rw [e]
        congr 1
        omega
      · rw [if_neg hnew]
        by_cases hcur : row < w ∧ col < h ∧ x = row ∧ y = col
        · have hall : y = col ∧ row ≤ x ∧ x < row + (n + 1) ∧ x < w ∧ col < h := by omega
          rw [if_pos hcur, if_pos hall]
          congr 1
          omega
        · have hall : ¬ (y = col ∧ row ≤ x ∧ x < row + (n + 1) ∧ x < w ∧ col < h) := by omega
          rw [if_neg hcur, if_neg hall]

theorem rowLoop_short (col : Nat) :
    ∀ (n row : Nat) (d : decoder) (p : RGBA64), d.r.length < 8 * n →
      ∃ d1 p1, rowLoop col n row d p
        = (d1, p1, some (if d.r.length % 8 = 0 then .EOF else .ErrUnexpectedEOF)) := by
  intro n
  induction n with
  | zero =>
    intro row d p hlen
    omega
  | succ n ih =>
    intro row d p hlen
    by_cases h8 : 8 ≤ d.r.length
    · obtain ⟨d1, p1, hrun⟩ :=
        ih (row + 1) { d with r := d.r.drop 8, tmp := d.r.take 8 ++ d.tmp.drop 8 }
          (p.SetRGBA64 row col (recordAt d.r 0))
          (by simp only [List.length_drop]; omega)
      refine ⟨d1, p1, ?_⟩
      simp only [rowLoop, parsePixel_of_le d h8]
      rw [hrun]
      simp only [List.length_drop]
      have hmod : (d.r.length - 8) % 8 = d.r.length % 8 := by omega
      rw [hmod]
    · have hlt : d.r.length < 8 := by omega
      refine ⟨{ d with r := [], tmp := d.r ++ d.tmp.drop d.r.length }, p, ?_⟩
      simp only [rowLoop, parsePixel_of_lt d hlt]
      by_cases h0 : d.r.length = 0
      · have hm : d.r.length % 8 = 0 := by omega
        rw [if_pos h0, if_pos hm]
      · have hm : ¬ d.r.length % 8 = 0 := by omega
        rw [if_neg h0, if_neg hm]

theorem colLoop_ok (w h : Nat) :
    ∀ (n col : Nat) (d : decoder) (p : RGBA64), d.height = h → 8 * (n * h) ≤ d.r.length →
      p.WF w h →
      ∃ d1 p1, colLoop n col d p = (d1, p1, none) ∧ d1.r = d.r.drop (8 * (n * h))
        ∧ d1.height = d.height ∧ d1.width = d.width ∧ p1.WF w h
        ∧ ∀ x y, p1.RGBA64At x y
            = if col ≤ y ∧ y < col + n ∧ x < h ∧ x < w ∧ y < h
              then recordAt d.r ((y - col) * h + x) else p.RGBA64At x y := by
  intro n
  induction n with
  | zero =>
    intro col d p _ _ hp
    refine ⟨d, p, rfl, by simp, rfl, rfl, hp, ?_⟩
    intro x y
    have hneg : ¬ (col ≤ y ∧ y < col + 0 ∧ x < h ∧ x < w ∧ y < h) := by omega
    rw [if_neg hneg]
  | succ n ih =>
    intro col d p hd hlen hp
    have hsplit : (n + 1) * h = n * h + h := by ring
    have hrow : 8 * h ≤ d.r.length := by omega
    obtain ⟨d0, p0, hrun0, hr0, hh0, hw0, hwf0, hpix0⟩ := rowLoop_ok col w h h 0 d p hrow hp
    obtain ⟨d1, p1, hrun, hr, hh, hw, hwf, hpix⟩ :=
      ih (col + 1) d0 p0 (by rw [hh0, hd])
        (by rw [hr0]; simp only [List.length_drop]; omega) hwf0
    refine ⟨d1, p1, ?_, ?_, by rw [hh, hh0], by rw [hw, hw0], hwf, ?_⟩
    · simp only [colLoop, hd, hrun0]
      exact hrun
    · rw [hr, hr0]
      simp only [List.drop_drop]
      congr 1
      omega
    · intro x y
      rw [hpix x y, hpix0 x y, hr0]
      by_cases hnew : col + 1 ≤ y ∧ y < col + 1 + n ∧ x < h ∧ x < w ∧ y < h
      · have hall : col ≤ y ∧ y < col + (n + 1) ∧ x < h ∧ x < w ∧ y < h := by omega
        rw [if_pos hnew, if_pos hall, recordAt_drop]
        congr 1
        obtain ⟨t, rfl⟩ : ∃ t, y = col + 1 + t := ⟨y - (col + 1), by omega⟩
        have e1 : col + 1 + t - (col + 1) = t := by omega
        have e2 : col + 1 + t - col = t + 1 := by omega
        rw [e1, e2]
        ring
      · rw [if_neg hnew]
        by_cases hcur : y = col ∧ 0 ≤ x ∧ x < 0 + h ∧ x < w ∧ col < h
        · have hall : col ≤ y ∧ y < col + (n + 1) ∧ x < h ∧ x < w ∧ y < h := by omega
          rw [if_pos hcur, if_pos hall]
          congr 1
          obtain ⟨rfl, _⟩ := hcur
          simp
        · have hall : ¬ (col ≤ y ∧ y < col + (n + 1) ∧ x < h ∧ x < w ∧ y < h) := by omega
          rw [if_neg hcur, if_neg hall]

theorem colLoop_short (w h : Nat) :
    ∀ (n col : Nat) (d : decoder) (p : RGBA64), d.height = h → p.WF w h →
      d.r.length < 8 * (n * h) →
      ∃ d1 p1, colLoop n col d p
        = (d1, p1, some (if d.r.length % 8 = 0 then .EOF else .ErrUnexpectedEOF)) := by
  intro n
  induction n with
  | zero =>
    intro col d p _ _ hlen
    omega
  | succ n ih =>
    intro col d p hd hp hlen
    have hsplit : (n + 1) * h = n * h + h := by ring
    by_cases hrow : 8 * h ≤ d.r.length
    · obtain ⟨d0, p0, hrun0, hr0, hh0, _, hwf0, _⟩ := rowLoop_ok col w h h 0 d p hrow hp
      obtain ⟨d1, p1, hrun⟩ :=
        ih (col + 1) d0 p0 (by rw [hh0, hd]) hwf0
          (by rw [hr0]; simp only [List.length_drop]; omega)
      refine ⟨d1, p1, ?_⟩
      simp only [colLoop, hd, hrun0]
      rw [hrun, hr0]
      simp only [List.length_drop]
      have hmod : (d.r.length - 8 * h) % 8 = d.r.length % 8 := by omega
      rw [hmod]
    · obtain ⟨d0, p0, hrun0⟩ := rowLoop_short col h 0 d p (by omega)
      refine ⟨d0, p0, ?_⟩
      simp only [colLoop, hd, hrun0]

/-! ## Allocation of the buffer -/

theorem mul3NonNeg_eight (w h : Nat) (hw : w < 2 ^ 32) :
    mul3NonNeg ((8 : Nat) : Int) (w : Int) (h : Int)
      = if 8 * w * h < 2 ^ 63 then ((8 * w * h : Nat) : Int) else -1 := by
  have e0 : ¬ (((8 : Nat) : Int) < 0 ∨ (w : Int) < 0 ∨ (h : Int) < 0) := by omega
  have e1 : (((8 : Nat) : Int) * (w : Int)) / 2 ^ 64 = 0 := by omega
  have e2 : (((8 : Nat) : Int) * (w : Int)) % 2 ^ 64 = ((8 * w : Nat) : Int) := by omega
  have e3 : ((8 * w : Nat) : Int) * (h : Int) = ((8 * w * h : Nat) : Int) := by push_cast; ring
  simp only [mul3NonNeg, if_neg e0, e1, e2, e3, ne_eq, not_true_eq_false, if_false]
  generalize 8 * w * h = q
  by_cases hq : q < 2 ^ 63
  · have f1 : (q : Int) / 2 ^ 64 = 0 := by omega
    have f2 : (q : Int) % 2 ^ 64 = q := by omega
    have f3 : (q : Int) < 2 ^ 63 := by omega
    have f4 : ¬ (q : Int) < 0 := by omega
    simp only [f1, f2, f3, f4, if_pos hq, not_true_eq_false, if_false, if_true]
  · rw [if_neg hq]
    by_cases hq2 : q < 2 ^ 64
    · have f1 : (q : Int) / 2 ^ 64 = 0 := by omega
      have f2 : (q : Int) % 2 ^ 64 = q := by omega
      have f3 : ¬ (q : Int) < 2 ^ 63 := by omega
      have f4 : (q : Int) - 2 ^ 64 < 0 := by omega
      simp only [f1, f2, f3, f4, not_true_eq_false, if_false, if_true]
    · have f1 : ¬ (q : Int) / 2 ^ 64 = 0 := by omega
      simp only [f1, not_false_eq_true, if_true]

theorem maxAlloc_lt : maxAlloc < 2 ^ 63 := by decide

theorem NewRGBA64_ok (w h : Nat) (hw : w < 2 ^ 32) (hfit : 8 * w * h ≤ maxAlloc) :
    NewRGBA64 (Rect 0 0 w h)
      = .ret { Pix := List.replicate (8 * w * h) 0, Stride := 8 * w
               Rect := ⟨⟨0, 0⟩, ⟨w, h⟩⟩ } := by
  have hlt : 8 * w * h < 2 ^ 63 := Nat.lt_of_le_of_lt hfit maxAlloc_lt
  have hnn : ¬ (((8 * w * h : Nat) : Int) < 0) := by omega
  have hng : ¬ 8 * w * h > maxAlloc := by omega
  simp only [NewRGBA64, pixelBufferLength, Rect_zero, Rectangle.Dx, Rectangle.Dy,
    Nat.sub_zero, mul3NonNeg_eight w h hw, if_pos hlt, if_neg hnn, Int.toNat_ofNat,
    makeSlice, if_neg hng]

theorem NewRGBA64_panic (w h : Nat) (hw : w < 2 ^ 32) (hbig : 2 ^ 63 ≤ 8 * w * h) :
    NewRGBA64 (Rect 0 0 w h)
      = .panic "image: NewRGBA64 Rectangle has huge or negative dimensions" := by
  have hnot : ¬ 8 * w * h < 2 ^ 63 := by omega
  simp only [NewRGBA64, pixelBufferLength, Rect_zero, Rectangle.Dx, Rectangle.Dy,
    Nat.sub_zero, mul3NonNeg_eight w h hw, if_neg hnot]
  rfl

theorem NewRGBA64_panic_make (w h : Nat) (hw : w < 2 ^ 32) (hbig : maxAlloc < 8 * w * h)
    (hlt : 8 * w * h < 2 ^ 63) :
    NewRGBA64 (Rect 0 0 w h) = .panic "runtime error: makeslice: len out of range" := by
  have hnn : ¬ (((8 * w * h : Nat) : Int) < 0) := by omega
  have hg : 8 * w * h > maxAlloc := hbig
  simp only [NewRGBA64, pixelBufferLength, Rect_zero, Rectangle.Dx, Rectangle.Dy,
    Nat.sub_zero, mul3NonNeg_eight w h hw, if_pos hlt, if_neg hnn, Int.toNat_ofNat,
    makeSlice, if_pos hg]

theorem NewRGBA64_abort (w h : Nat) (hw : w < 2 ^ 32) (hbig : maxAlloc < 8 * w * h) :
    NewRGBA64 (Rect 0 0 w h) = .panic (allocPanic (8 * w * h)) := by
  by_cases h63 : 2 ^ 63 ≤ 8 * w * h
  · rw [NewRGBA64_panic w h hw h63, allocPanic, if_pos h63]
  · rw [NewRGBA64_panic_make w h hw hbig (by omega), allocPanic, if_neg h63]

theorem NewRGBA64_WF (w h : Nat) :
    RGBA64.WF { Pix := List.replicate (8 * w * h) 0, Stride := 8 * w
                Rect := ⟨⟨0, 0⟩, ⟨w, h⟩⟩ } w h :=
  ⟨rfl, rfl, List.length_replicate _ _⟩

theorem NewRGBA64_At (w h x y : Nat) :
    RGBA64.RGBA64At { Pix := List.replicate (8 * w * h) 0, Stride := 8 * w
                      Rect := ⟨⟨0, 0⟩, ⟨w, h⟩⟩ } x y = Color.zero := by
  have hz : ∀ j, ((List.replicate (8 * w * h) (0 : Byte)).getD j 0).val = 0 := by
    intro j
    simp only [List.getD_eq_getElem?_getD, List.getElem?_replicate]
    split <;> rfl
  simp only [RGBA64.RGBA64At, hz]
  split <;> rfl

/-! ## `Decode` after the header and the dimensions -/

theorem exists_four (l : List Byte) (h : l.length = 4) :
    ∃ b0 b1 b2 b3, l = [b0, b1, b2, b3] := by
  match l, h with
  | [b0, b1, b2, b3], _ => exact ⟨b0, b1, b2, b3, rfl⟩

theorem DecodeRun_of_dims (wb hb data : List Byte) (hwb : wb.length = 4)
    (hhb : hb.length = 4) :
    ∃ tmp, DecodeRun (ffHeader ++ (wb ++ (hb ++ data)))
      = match NewRGBA64 (Rect 0 0 (Uint32 wb) (Uint32 hb)) with
        | .panic msg => .panic msg
        | .ret rgba =>
          match colLoop (Uint32 wb) 0
              { r := data, img := some rgba, width := Uint32 wb, height := Uint32 hb
                tmp := tmp } rgba with
          | (d, _, some err) => .ret (d, none, some err)
          | (d, rgba, none) => .ret ({ d with img := some rgba }, some rgba, none) := by
  obtain ⟨a0, a1, a2, a3, rfl⟩ := exists_four wb hwb
  obtain ⟨c0, c1, c2, c3, rfl⟩ := exists_four hb hhb
  have hm : (newDecoder (ffHeader ++ ([a0, a1, a2, a3] ++ ([c0, c1, c2, c3] ++ data)))).r.take 8
      = ffHeader := List.take_left' rfl
  have hd : (newDecoder (ffHeader ++ ([a0, a1, a2, a3] ++ ([c0, c1, c2, c3] ++ data)))).r.drop 8
      = a0 :: a1 :: a2 :: a3 :: c0 :: c1 :: c2 :: c3 :: data := List.drop_left' rfl
  refine ⟨[a0, a1, a2, a3, c0, c1, c2, c3]
    ++ (ffHeader ++ (List.replicate (3 * 256) (0 : Byte)).drop 8).drop 8, ?_⟩
  unfold DecodeRun
  simp only []
  rw [checkHeader_of_magic _ hm, hd]
  simp only []
  rw [readFull_of_le _ 8 (by simp)]
  simp only [List.take_succ_cons, List.take_zero, List.drop_succ_cons, List.drop_zero,
    List.cons_append, List.nil_append]
  rfl

theorem Uint32_lt (l : List Byte) : Uint32 l < 2 ^ 32 := by
  have h0 := (l.getD 0 0).isLt
  have h1 := (l.getD 1 0).isLt
  have h2 := (l.getD 2 0).isLt
  have h3 := (l.getD 3 0).isLt
  simp only [Uint32]
  rw [lor_shiftLeft_eq _ _ 8 (by omega), lor_shiftLeft_eq _ _ 16 (by omega),
    lor_shiftLeft_eq _ _ 24 (by omega)]
  omega

theorem DecodeRun_ok (wb hb data : List Byte) (hwb : wb.length = 4) (hhb : hb.length = 4)
    (hfit : 8 * Uint32 wb * Uint32 hb ≤ maxAlloc)
    (hdata : 8 * (Uint32 wb * Uint32 hb) ≤ data.length) :
    ∃ d img, DecodeRun (ffHeader ++ (wb ++ (hb ++ data))) = .ret (d, some img, none)
      ∧ d.r = data.drop (8 * (Uint32 wb * Uint32 hb))
      ∧ img.WF (Uint32 wb) (Uint32 hb)
      ∧ ∀ x y, img.RGBA64At x y
          = if y < Uint32 wb ∧ x < Uint32 hb ∧ x < Uint32 wb ∧ y < Uint32 hb
            then recordAt data (y * Uint32 hb + x) else Color.zero := by
  obtain ⟨tmp, hrun⟩ := DecodeRun_of_dims wb hb data hwb hhb
  obtain ⟨d1, p1, hloop, hr, _, _, hwf, hpix⟩ :=
    colLoop_ok (Uint32 wb) (Uint32 hb) (Uint32 wb) 0
      { r := data
        img := some { Pix := List.replicate (8 * Uint32 wb * Uint32 hb) 0
                      Stride := 8 * Uint32 wb
                      Rect := ⟨⟨0, 0⟩, ⟨Uint32 wb, Uint32 hb⟩⟩ }
        width := Uint32 wb, height := Uint32 hb, tmp := tmp }
      { Pix := List.replicate (8 * Uint32 wb * Uint32 hb) 0, Stride := 8 * Uint32 wb
        Rect := ⟨⟨0, 0⟩, ⟨Uint32 wb, Uint32 hb⟩⟩ }
      rfl hdata (NewRGBA64_WF _ _)
  refine ⟨{ d1 with img := some p1 }, p1, ?_, hr, hwf, ?_⟩
  · rw [hrun, NewRGBA64_ok _ _ (Uint32_lt wb) hfit]
    simp only [hloop]
  · intro x y
    rw [hpix x y, NewRGBA64_At]
    by_cases hc : y < Uint32 wb ∧ x < Uint32 hb ∧ x < Uint32 wb ∧ y < Uint32 hb
    · have hc2 : 0 ≤ y ∧ y < 0 + Uint32 wb ∧ x < Uint32 hb ∧ x < Uint32 wb ∧ y < Uint32 hb := by
        omega
      rw [if_pos hc, if_pos hc2, Nat.sub_zero]
    · have hc2 : ¬ (0 ≤ y ∧ y < 0 + Uint32 wb ∧ x < Uint32 hb ∧ x < Uint32 wb
          ∧ y < Uint32 hb) := by omega
      rw [if_neg hc, if_neg hc2]

theorem DecodeRun_short (wb hb data : List Byte) (hwb : wb.length = 4) (hhb : hb.length = 4)
    (hfit : 8 * Uint32 wb * Uint32 hb ≤ maxAlloc)
    (hdata : data.length < 8 * (Uint32 wb * Uint32 hb)) :
    ∃ d, DecodeRun (ffHeader ++ (wb ++ (hb ++ data)))
      = .ret (d, none, some (if data.length % 8 = 0 then .EOF else .ErrUnexpectedEOF)) := by
  obtain ⟨tmp, hrun⟩ := DecodeRun_of_dims wb hb data hwb hhb
  obtain ⟨d1, p1, hloop⟩ :=
    colLoop_short (Uint32 wb) (Uint32 hb) (Uint32 wb) 0
      { r := data
        img := some { Pix := List.replicate (8 * Uint32 wb * Uint32 hb) 0
                      Stride := 8 * Uint32 wb
                      Rect := ⟨⟨0, 0⟩, ⟨Uint32 wb, Uint32 hb⟩⟩ }
        width := Uint32 wb, height := Uint32 hb, tmp := tmp }
      { Pix := List.replicate (8 * Uint32 wb * Uint32 hb) 0, Stride := 8 * Uint32 wb
        Rect := ⟨⟨0, 0⟩, ⟨Uint32 wb, Uint32 hb⟩⟩ }
      rfl (NewRGBA64_WF _ _) hdata
  refine ⟨d1, ?_⟩
  rw [hrun, NewRGBA64_ok _ _ (Uint32_lt wb) hfit]
  simp only [hloop]

theorem DecodeRun_panic (wb hb data : List Byte) (hwb : wb.length = 4) (hhb : hb.length = 4)
    (hbig : 2 ^ 63 ≤ 8 * Uint32 wb * Uint32 hb) :
    DecodeRun (ffHeader ++ (wb ++ (hb ++ data)))
      = .panic "image: NewRGBA64 Rectangle has huge or negative dimensions" := by
  obtain ⟨tmp, hrun⟩ := DecodeRun_of_dims wb hb data hwb hhb
  rw [hrun, NewRGBA64_panic _ _ (Uint32_lt wb) hbig]

theorem DecodeRun_abort (wb hb data : List Byte) (hwb : wb.length = 4) (hhb : hb.length = 4)
    (hbig : maxAlloc < 8 * Uint32 wb * Uint32 hb) :
    DecodeRun (ffHeader ++ (wb ++ (hb ++ data)))
      = .panic (allocPanic (8 * Uint32 wb * Uint32 hb)) := by
  obtain ⟨tmp, hrun⟩ := DecodeRun_of_dims wb hb data hwb hhb
  rw [hrun, NewRGBA64_abort _ _ (Uint32_lt wb) hbig]

theorem Decode_of_run {s : List Byte} {d : decoder} {res : Option RGBA64 × Option Err}
    (h : DecodeRun s = .ret (d, res)) : Decode s = .ret res := by
  simp only [Decode, h]

theorem Decode_of_run_panic {s : List Byte} {msg : String}
    (h : DecodeRun s = .panic msg) : Decode s = .panic msg := by
  simp only [Decode, h]

theorem be32_length (v : Nat) : (be32 v).length = 4 := rfl

theorem Uint32_be32_self (v : Nat) (hv : v < 2 ^ 32) : Uint32 (be32 v) = v := by
  have h := Uint32_be32 v hv []
  rw [List.append_nil] at h
  exact h

theorem Uint32_getD (l : List Byte) :
    Uint32 l = 2 ^ 24 * (l.getD 0 0).val + 2 ^ 16 * (l.getD 1 0).val
      + 2 ^ 8 * (l.getD 2 0).val + (l.getD 3 0).val := by
  have h0 := (l.getD 0 0).isLt
  have h1 := (l.getD 1 0).isLt
  have h2 := (l.getD 2 0).isLt
  have h3 := (l.getD 3 0).isLt
  simp only [Uint32]
  rw [lor_shiftLeft_eq _ _ 8 (by omega), lor_shiftLeft_eq _ _ 16 (by omega),
    lor_shiftLeft_eq _ _ 24 (by omega)]
  omega

theorem getD_take (l : List Byte) (n j : Nat) (h : j < n) :
    (l.take n).getD j 0 = l.getD j 0 := by
  simp only [List.getD_eq_getElem?_getD, List.getElem?_take, if_pos h]

theorem DecodeConfig_of_dims (s : List Byte) (hm : s.take 8 = ffHeader)
    (h16 : 16 ≤ s.length) :
    DecodeConfig s
      = ({ ColorModel := some .RGBAModel, Width := Uint32 ((s.drop 8).take 4)
           Height := Uint32 ((s.drop 12).take 4) }, none) := by
  have hc := checkHeader_of_magic (newDecoder s) hm
  simp only [DecodeConfig, DecodeConfigRun, hc]
  rw [parseWH_of_le _ (by
    show 8 ≤ (List.drop 8 (newDecoder s).r).length
    simp only [List.length_drop]
    show 8 ≤ s.length - 8
    omega)]
  simp only [List.drop_drop]
  rfl

theorem DecodeConfig_of_lt_dims (s : List Byte) (hm : s.take 8 = ffHeader)
    (h16 : s.length < 16) :
    DecodeConfig s = (Config.zero, some .ErrUnexpectedEOF) := by
  have hc := checkHeader_of_magic (newDecoder s) hm
  have hlt : ({ newDecoder s with r := (newDecoder s).r.drop 8
                                  tmp := ffHeader ++ (newDecoder s).tmp.drop 8 } : decoder).r.length
      < 8 := by
    show (List.drop 8 s).length < 8
    simp only [List.length_drop]
    omega
  have hp := parseWH_of_lt _ hlt
  cases hq : parseWH { newDecoder s with r := (newDecoder s).r.drop 8
                                         tmp := ffHeader ++ (newDecoder s).tmp.drop 8 } with
  | mk d1 e1 =>
    rw [hq] at hp
    simp only at hp
    subst hp
    simp only [DecodeConfig, DecodeConfigRun, hc, hq]
    split <;> rfl

theorem Decode_of_lt_dims (s : List Byte) (hm : s.take 8 = ffHeader) (h16 : s.length < 16) :
    Decode s
      = .ret (none, some (if s.length = 8 then .EOF else .ErrUnexpectedEOF)) := by
  have hlen : 8 ≤ s.length := by
    have := congrArg List.length hm
    rw [List.length_take] at this
    simp only [ffHeader, List.length_cons, List.length_nil] at this
    omega
  have hc := checkHeader_of_magic (newDecoder s) hm
  simp only [Decode, DecodeRun, hc]
  rw [readFull_of_lt _ 8 (by
    show (List.drop 8 s).length < 8
    simp only [List.length_drop]
    omega)]
  simp only []
  have hl : (List.drop 8 (newDecoder s).r).length = s.length - 8 := by
    show (List.drop 8 s).length = s.length - 8
    simp only [List.length_drop]
  rw [hl]
  by_cases h8 : s.length = 8
  · have h0 : s.length - 8 = 0 := by omega
    rw [if_pos h8, if_pos h0]
  · have h0 : ¬ s.length - 8 = 0 := by omega
    rw [if_neg h8, if_neg h0]

theorem take_file (w h : Nat) (data : List Byte) (L : Nat) (hL : 16 ≤ L) :
    (ffHeader ++ be32 w ++ be32 h ++ data).take L
      = ffHeader ++ (be32 w ++ (be32 h ++ data.take (L - 16))) := by
  have h1 : ffHeader.length = 8 := rfl
  have e1 : ffHeader.take L = ffHeader := List.take_of_length_le (by rw [h1]; omega)
  have e2 : (be32 w).take (L - 8) = be32 w :=
    List.take_of_length_le (by rw [be32_length]; omega)
  have e3 : (be32 h).take (L - 8 - 4) = be32 h :=
    List.take_of_length_le (by rw [be32_length]; omega)
  have e4 : L - 8 - 4 - 4 = L - 16 := by omega
  rw [List.append_assoc, List.append_assoc, List.take_append_eq_append_take, e1, h1,
    List.take_append_eq_append_take, e2, be32_length, List.take_append_eq_append_take, e3,
    be32_length, e4]

theorem file_take_eight (w h : Nat) (data : List Byte) :
    (ffHeader ++ be32 w ++ be32 h ++ data).take 8 = ffHeader := by
  rw [List.append_assoc, List.append_assoc]
  exact List.take_left' rfl

theorem file_length (w h : Nat) (data : List Byte) :
    (ffHeader ++ be32 w ++ be32 h ++ data).length = 16 + data.length := by
  simp only [List.length_append, be32_length, ffHeader, List.length_cons, List.length_nil]

/-! ## Every stream: the six ways `Decode` can end -/

theorem split_file (s : List Byte) (hm : s.take 8 = ffHeader) :
    s = ffHeader ++ ((s.drop 8).take 4 ++ ((s.drop 12).take 4 ++ s.drop 16)) := by
  have h1 : s = s.take 8 ++ s.drop 8 := (List.take_append_drop 8 s).symm
  have h2 : s.drop 8 = (s.drop 8).take 4 ++ (s.drop 8).drop 4 :=
    (List.take_append_drop 4 _).symm
  have h3 : s.drop 12 = (s.drop 12).take 4 ++ (s.drop 12).drop 4 :=
    (List.take_append_drop 4 _).symm
  rw [List.drop_drop] at h2 h3
  rw [← h3, ← h2, ← hm]
  exact h1

theorem Uint32_width (s : List Byte) : Uint32 ((s.drop 8).take 4) = declaredWidth s := by
  rw [Uint32_getD, getD_take _ _ _ (by omega), getD_take _ _ _ (by omega),
    getD_take _ _ _ (by omega), getD_take _ _ _ (by omega), getD_drop, getD_drop,
    getD_drop, getD_drop]
  rfl

theorem Uint32_height (s : List Byte) : Uint32 ((s.drop 12).take 4) = declaredHeight s := by
  rw [Uint32_getD, getD_take _ _ _ (by omega), getD_take _ _ _ (by omega),
    getD_take _ _ _ (by omega), getD_take _ _ _ (by omega), getD_drop, getD_drop,
    getD_drop, getD_drop]
  rfl

theorem length_of_magic (s : List Byte) (hm : s.take 8 = ffHeader) : 8 ≤ s.length := by
  have := congrArg List.length hm
  rw [List.length_take] at this
  simp only [ffHeader, List.length_cons, List.length_nil] at this
  omega

theorem length_dim_bytes (s : List Byte) (h16 : 16 ≤ s.length) :
    ((s.drop 8).take 4).length = 4 ∧ ((s.drop 12).take 4).length = 4 := by
  constructor <;>
  · rw [List.length_take, List.length_drop]
    omega

theorem DecodeRun_fit (s : List Byte) (hm : s.take 8 = ffHeader) (h16 : 16 ≤ s.length)
    (hfit : 8 * declaredWidth s * declaredHeight s ≤ maxAlloc)
    (hdata : 16 + 8 * (declaredWidth s * declaredHeight s) ≤ s.length) :
    ∃ d img, DecodeRun s = .ret (d, some img, none)
      ∧ d.r = s.drop (16 + 8 * (declaredWidth s * declaredHeight s))
      ∧ img.WF (declaredWidth s) (declaredHeight s)
      ∧ ∀ x y, img.RGBA64At x y
          = if y < declaredWidth s ∧ x < declaredHeight s ∧ x < declaredWidth s
              ∧ y < declaredHeight s
            then recordAt (s.drop 16) (y * declaredHeight s + x) else Color.zero := by
  obtain ⟨l1, l2⟩ := length_dim_bytes s h16
  obtain ⟨d, img, hrun, hr, hwf, hpix⟩ :=
    DecodeRun_ok ((s.drop 8).take 4) ((s.drop 12).take 4) (s.drop 16) l1 l2
      (by rw [Uint32_width, Uint32_height]; exact hfit)
      (by rw [Uint32_width, Uint32_height, List.length_drop]; omega)
  rw [← split_file s hm] at hrun
  rw [Uint32_width, Uint32_height] at hr hwf hpix
  refine ⟨d, img, hrun, ?_, hwf, hpix⟩
  rw [hr, List.drop_drop]

theorem DecodeRun_trunc (s : List Byte) (hm : s.take 8 = ffHeader) (h16 : 16 ≤ s.length)
    (hfit : 8 * declaredWidth s * declaredHeight s ≤ maxAlloc)
    (hdata : s.length < 16 + 8 * (declaredWidth s * declaredHeight s)) :
    ∃ d, DecodeRun s
      = .ret (d, none, some (if (s.length - 16) % 8 = 0 then .EOF else .ErrUnexpectedEOF)) := by
  obtain ⟨l1, l2⟩ := length_dim_bytes s h16
  obtain ⟨d, hrun⟩ :=
    DecodeRun_short ((s.drop 8).take 4) ((s.drop 12).take 4) (s.drop 16) l1 l2
      (by rw [Uint32_width, Uint32_height]; exact hfit)
      (by rw [Uint32_width, Uint32_height, List.length_drop]; omega)
  rw [← split_file s hm, List.length_drop] at hrun
  exact ⟨d, hrun⟩

theorem DecodeRun_huge (s : List Byte) (hm : s.take 8 = ffHeader) (h16 : 16 ≤ s.length)
    (hbig : maxAlloc < 8 * declaredWidth s * declaredHeight s) :
    DecodeRun s = .panic (allocPanic (8 * declaredWidth s * declaredHeight s)) := by
  obtain ⟨l1, l2⟩ := length_dim_bytes s h16
  have hrun := DecodeRun_abort ((s.drop 8).take 4) ((s.drop 12).take 4) (s.drop 16) l1 l2
      (by rw [Uint32_width, Uint32_height]; exact hbig)
  rw [← split_file s hm, Uint32_width, Uint32_height] at hrun
  exact hrun

/-! ## The result depends on the consumed bytes only -/

theorem recordAt_take (l : List Byte) (m k : Nat) (h : 8 * k + 8 ≤ m) :
    recordAt (l.take m) k = recordAt l k := by
  simp only [recordAt]
  rw [getD_take _ _ _ (by omega), getD_take _ _ _ (by omega), getD_take _ _ _ (by omega),
    getD_take _ _ _ (by omega), getD_take _ _ _ (by omega), getD_take _ _ _ (by omega),
    getD_take _ _ _ (by omega), getD_take _ _ _ (by omega)]

theorem take_of_take_eq {l l' : List Byte} {m : Nat} (k : Nat) (hk : k ≤ m)
    (h : l.take m = l'.take m) : l.take k = l'.take k := by
  have := congrArg (List.take k) h
  rw [List.take_take, List.take_take, Nat.min_eq_left hk] at this
  exact this

theorem drop_take_of_take_eq {l l' : List Byte} {m : Nat} (j k : Nat) (hk : j + k ≤ m)
    (h : l.take m = l'.take m) : (l.drop j).take k = (l'.drop j).take k := by
  rw [List.take_drop, List.take_drop, take_of_take_eq (j + k) hk h]

theorem rowLoop_congr (col : Nat) :
    ∀ (n row : Nat) (d d' : decoder) (p : RGBA64), 8 * n ≤ d.r.length →
      8 * n ≤ d'.r.length → d.r.take (8 * n) = d'.r.take (8 * n) →
      (rowLoop col n row d p).2.1 = (rowLoop col n row d' p).2.1 := by
  intro n
  induction n with
  | zero =>
    intro row d d' p _ _ _
    rfl
  | succ n ih =>
    intro row d d' p hl hl' ht
    have h8 : 8 ≤ d.r.length := by omega
    have h8' : 8 ≤ d'.r.length := by omega
    have hrec : recordAt d.r 0 = recordAt d'.r 0 := by
      rw [← recordAt_take d.r (8 * (n + 1)) 0 (by omega), ht,
        recordAt_take d'.r (8 * (n + 1)) 0 (by omega)]
    simp only [rowLoop, parsePixel_of_le d h8, parsePixel_of_le d' h8', hrec]
    exact ih (row + 1) _ _ _
      (by simp only [List.length_drop]; omega) (by simp only [List.length_drop]; omega)
      (drop_take_of_take_eq 8 (8 * n) (by omega) ht)

theorem colLoop_congr (w h : Nat) :
    ∀ (n col : Nat) (d d' : decoder) (p : RGBA64), d.height = h → d'.height = h →
      p.WF w h → 8 * (n * h) ≤ d.r.length → 8 * (n * h) ≤ d'.r.length →
      d.r.take (8 * (n * h)) = d'.r.take (8 * (n * h)) →
      (colLoop n col d p).2.1 = (colLoop n col d' p).2.1 := by
  intro n
  induction n with
  | zero =>
    intro col d d' p _ _ _ _ _ _
    rfl
  | succ n ih =>
    intro col d d' p hd hd' hp hl hl' ht
    have hsplit : (n + 1) * h = n * h + h := by ring
    obtain ⟨d0, p0, hrun0, hr0, hh0, _, hwf0, _⟩ :=
      rowLoop_ok col w h h 0 d p (by omega) hp
    obtain ⟨d0', p0', hrun0', hr0', hh0', _, _, _⟩ :=
      rowLoop_ok col w h h 0 d' p (by omega) hp
    have hp0 : p0 = p0' := by
      have hc := rowLoop_congr col h 0 d d' p (by omega) (by omega)
        (take_of_take_eq (8 * h) (by omega) ht)
      rw [hrun0, hrun0'] at hc
      exact hc
    subst hp0
    simp only [colLoop, hd, hd', hrun0, hrun0']
    refine ih (col + 1) d0 d0' p0 (by rw [hh0, hd]) (by rw [hh0', hd']) hwf0
      (by rw [hr0]; simp only [List.length_drop]; omega)
      (by rw [hr0']; simp only [List.length_drop]; omega) ?_
    rw [hr0, hr0']
    exact drop_take_of_take_eq (8 * h) (8 * (n * h)) (by omega) ht

theorem DecodeRun_frame (wb hb data T : List Byte) (hwb : wb.length = 4)
    (hhb : hb.length = 4) (hfit : 8 * Uint32 wb * Uint32 hb ≤ maxAlloc)
    (hdata : data.length = 8 * (Uint32 wb * Uint32 hb)) :
    ∃ d1 d2 img, DecodeRun (ffHeader ++ (wb ++ (hb ++ (data ++ T)))) = .ret (d1, some img, none)
      ∧ DecodeRun (ffHeader ++ (wb ++ (hb ++ data))) = .ret (d2, some img, none)
      ∧ d1.r = T ∧ d2.r = [] := by
  obtain ⟨tmp1, hrun1⟩ := DecodeRun_of_dims wb hb (data ++ T) hwb hhb
  obtain ⟨tmp2, hrun2⟩ := DecodeRun_of_dims wb hb data hwb hhb
  have hwf := NewRGBA64_WF (Uint32 wb) (Uint32 hb)
  have hlenT : 8 * (Uint32 wb * Uint32 hb) ≤ (data ++ T).length := by
    rw [List.length_append]; omega
  obtain ⟨e1, p1, hloop1, hr1, _, _, _, _⟩ :=
    colLoop_ok (Uint32 wb) (Uint32 hb) (Uint32 wb) 0
      { r := data ++ T
        img := some { Pix := List.replicate (8 * Uint32 wb * Uint32 hb) 0
                      Stride := 8 * Uint32 wb
                      Rect := ⟨⟨0, 0⟩, ⟨Uint32 wb, Uint32 hb⟩⟩ }
        width := Uint32 wb, height := Uint32 hb, tmp := tmp1 }
      { Pix := List.replicate (8 * Uint32 wb * Uint32 hb) 0, Stride := 8 * Uint32 wb
        Rect := ⟨⟨0, 0⟩, ⟨Uint32 wb, Uint32 hb⟩⟩ }
      rfl hlenT hwf
  obtain ⟨e2, p2, hloop2, hr2, _, _, _, _⟩ :=
    colLoop_ok (Uint32 wb) (Uint32 hb) (Uint32 wb) 0
      { r := data
        img := some { Pix := List.replicate (8 * Uint32 wb * Uint32 hb) 0
                      Stride := 8 * Uint32 wb
                      Rect := ⟨⟨0, 0⟩, ⟨Uint32 wb, Uint32 hb⟩⟩ }
        width := Uint32 wb, height := Uint32 hb, tmp := tmp2 }
      { Pix := List.replicate (8 * Uint32 wb * Uint32 hb) 0, Stride := 8 * Uint32 wb
        Rect := ⟨⟨0, 0⟩, ⟨Uint32 wb, Uint32 hb⟩⟩ }
      rfl (Nat.le_of_eq hdata.symm) hwf
  have hcongr := colLoop_congr (Uint32 wb) (Uint32 hb) (Uint32 wb) 0
      { r := data ++ T
        img := some { Pix := List.replicate (8 * Uint32 wb * Uint32 hb) 0
                      Stride := 8 * Uint32 wb
                      Rect := ⟨⟨0, 0⟩, ⟨Uint32 wb, Uint32 hb⟩⟩ }
        width := Uint32 wb, height := Uint32 hb, tmp := tmp1 }
      { r := data
        img := some { Pix := List.replicate (8 * Uint32 wb * Uint32 hb) 0
                      Stride := 8 * Uint32 wb
                      Rect := ⟨⟨0, 0⟩, ⟨Uint32 wb, Uint32 hb⟩⟩ }
        width := Uint32 wb, height := Uint32 hb, tmp := tmp2 }
      { Pix := List.replicate (8 * Uint32 wb * Uint32 hb) 0, Stride := 8 * Uint32 wb
        Rect := ⟨⟨0, 0⟩, ⟨Uint32 wb, Uint32 hb⟩⟩ }
      rfl rfl hwf hlenT (by show 8 * (Uint32 wb * Uint32 hb) ≤ data.length; omega)
      (by
        show (data ++ T).take (8 * (Uint32 wb * Uint32 hb)) = data.take _
        rw [List.take_append_of_le_length (by omega)])
  rw [hloop1, hloop2] at hcongr
  simp only at hcongr
  subst hcongr
  have hfull : data.drop (8 * (Uint32 wb * Uint32 hb)) = [] :=
    List.drop_of_length_le (by omega)
  have hT : (data ++ T).drop (8 * (Uint32 wb * Uint32 hb)) = T := by
    rw [← hdata]
    exact List.drop_left' rfl
  refine ⟨{ e1 with img := some p1 }, { e2 with img := some p1 }, p1, ?_, ?_, ?_, ?_⟩
  · rw [hrun1, NewRGBA64_ok _ _ (Uint32_lt wb) hfit]
    simp only [hloop1]
  · rw [hrun2, NewRGBA64_ok _ _ (Uint32_lt wb) hfit]
    simp only [hloop2]
  · show e1.r = T
    rw [hr1]
    exact hT
  · show e2.r = []
    rw [hr2]
    exact hfull

/-! ## Outcomes of the two entry points on an arbitrary stream -/

theorem Decode_of_incomplete (s : List Byte)
    (hnh : ¬ (s.take 8 = ffHeader ∧ 16 ≤ s.length
      ∧ maxAlloc < 8 * declaredWidth s * declaredHeight s))
    (hnc : ¬ (s.take 8 = ffHeader ∧ 16 ≤ s.length
      ∧ 16 + 8 * (declaredWidth s * declaredHeight s) ≤ s.length)) :
    ∃ e, Decode s = .ret (none, some e) := by
  by_cases h8 : s.length < 8
  · exact ⟨_, Decode_of_lt_header s h8⟩
  by_cases hm : s.take 8 = ffHeader
  · by_cases h16 : s.length < 16
    · exact ⟨_, Decode_of_lt_dims s hm h16⟩
    · have hfit : 8 * declaredWidth s * declaredHeight s ≤ maxAlloc := by
        by_contra hc
        exact hnh ⟨hm, by omega, by omega⟩
      have hshort : s.length < 16 + 8 * (declaredWidth s * declaredHeight s) := by
        by_contra hc
        exact hnc ⟨hm, by omega, by omega⟩
      obtain ⟨d, hrun⟩ := DecodeRun_trunc s hm (by omega) hfit hshort
      exact ⟨_, Decode_of_run hrun⟩
  · exact ⟨_, Decode_of_bad_header s (by omega) hm⟩

theorem Decode_of_huge (s : List Byte) (hm : s.take 8 = ffHeader) (h16 : 16 ≤ s.length)
    (hbig : maxAlloc < 8 * declaredWidth s * declaredHeight s) :
    Decode s = .panic (allocPanic (8 * declaredWidth s * declaredHeight s)) :=
  Decode_of_run_panic (DecodeRun_huge s hm h16 hbig)

theorem DecodeConfigRun_of_dims (s : List Byte) (hm : s.take 8 = ffHeader)
    (h16 : 16 ≤ s.length) :
    (DecodeConfigRun s).1.r = s.drop 16
      ∧ DecodeConfig s
        = ({ ColorModel := some .RGBAModel, Width := declaredWidth s
             Height := declaredHeight s }, none) := by
  constructor
  · have hc := checkHeader_of_magic (newDecoder s) hm
    simp only [DecodeConfigRun, hc]
    rw [parseWH_of_le _ (by
      show 8 ≤ (List.drop 8 (newDecoder s).r).length
      simp only [List.length_drop]
      show 8 ≤ s.length - 8
      omega)]
    simp only [List.drop_drop]
    rfl
  · rw [DecodeConfig_of_dims s hm h16, Uint32_width, Uint32_height]

theorem DecodeConfig_ok_inv (s : List Byte) (hok : (DecodeConfig s).2 = none) :
    s.take 8 = ffHeader ∧ 16 ≤ s.length := by
  by_cases h8 : s.length < 8
  · rw [DecodeConfig_of_lt_header s h8] at hok
    cases hok
  by_cases hm : s.take 8 = ffHeader
  · by_cases h16 : s.length < 16
    · rw [DecodeConfig_of_lt_dims s hm h16] at hok
      cases hok
    · exact ⟨hm, by omega⟩
  · rw [DecodeConfig_of_bad_header s (by omega) hm] at hok
    cases hok

theorem parseWH_fields_of_lt (d : decoder) (h : d.r.length < 8) :
    (parseWH d).1.width = d.width ∧ (parseWH d).1.height = d.height
      ∧ (parseWH d).1.r = [] := by
  simp only [parseWH]
  by_cases h4 : d.r.length < 4
  · rw [readFull_of_lt d 4 h4]
    exact ⟨rfl, rfl, rfl⟩
  · rw [readFull_of_le d 4 (by omega)]
    simp only []
    rw [readFull_of_lt _ 4 (by simp only [List.length_drop]; omega)]
    exact ⟨rfl, rfl, rfl⟩

theorem prefix_determines_header (s s2 : List Byte) (h : s2.take 16 = s.take 16)
    (hm : s.take 8 = ffHeader) (h16 : 16 ≤ s.length) :
    s2.take 8 = ffHeader ∧ 16 ≤ s2.length ∧ declaredWidth s2 = declaredWidth s
      ∧ declaredHeight s2 = declaredHeight s := by
  have hl : 16 ≤ s2.length := by
    have := congrArg List.length h
    rw [List.length_take, List.length_take] at this
    omega
  refine ⟨?_, hl, ?_, ?_⟩
  · rw [take_of_take_eq 8 (by omega) h]
    exact hm
  · rw [← Uint32_width, ← Uint32_width, drop_take_of_take_eq 8 4 (by omega) h]
  · rw [← Uint32_height, ← Uint32_height, drop_take_of_take_eq 12 4 (by omega) h]

/-! ## The properties -/

/-- C1 (as stated, refuted): the stream made of the magic, width `32769`,
height `1073709057` and `32769 * 1073709057 = 2^45 + 1` all-zero pixel records
has at least `w*h` records, yet `Decode` does not succeed on it: the buffer
would need `2^48 + 8` bytes and `make` panics inside `image.NewRGBA64`, before
any record is read. -/
theorem C1_counterexample_huge_dimensions :
    32769 < 2 ^ 32 ∧ 1073709057 < 2 ^ 32
      ∧ 8 * (32769 * 1073709057)
          ≤ (List.replicate (8 * (32769 * 1073709057)) (0 : Byte)).length
      ∧ Decode (ffHeader ++ be32 32769 ++ be32 1073709057
            ++ List.replicate (8 * (32769 * 1073709057)) 0)
          = .panic "runtime error: makeslice: len out of range" := by
  have hmsg : allocPanic (8 * 32769 * 1073709057)
      = "runtime error: makeslice: len out of range" := by decide
  have hrun := DecodeRun_abort (be32 32769) (be32 1073709057)
    (List.replicate (8 * (32769 * 1073709057)) 0) rfl rfl
    (by rw [Uint32_be32_self _ (by norm_num), Uint32_be32_self _ (by norm_num)]; decide)
  rw [Uint32_be32_self _ (by norm_num), Uint32_be32_self _ (by norm_num), hmsg] at hrun
  refine ⟨by norm_num, by norm_num, by rw [List.length_replicate], ?_⟩
  rw [List.append_assoc, List.append_assoc]
  exact Decode_of_run_panic hrun

/-- C1 (amended): for every stream made of the magic, a big-endian width `w`, a
big-endian height `h` with `8*w*h ≤ maxAlloc` (the buffer is one that `make`
accepts), and at least `w*h` 8-byte pixel records, `Decode` succeeds and
returns an image with bounds `(0,0)-(w,h)` in which the record number
`outer*h + inner` (`outer` in `[0,w)`, `inner` in `[0,h)`) is stored at
coordinate `(x = inner, y = outer)` whenever that coordinate lies inside the
bounds; the other records are dropped without error, and every pixel that
receives no record is all-zero. -/
theorem C1_decode_stores_record_at_swapped_coordinate (w h : Nat) (data : List Byte)
    (hw : w < 2 ^ 32) (hh : h < 2 ^ 32) (hfit : 8 * w * h ≤ maxAlloc)
    (hdata : 8 * (w * h) ≤ data.length) :
    ∃ img, Decode (ffHeader ++ be32 w ++ be32 h ++ data) = .ret (some img, none)
      ∧ img.Rect = ⟨⟨0, 0⟩, ⟨w, h⟩⟩
      ∧ (∀ outer inner, outer < w → inner < h → inner < w → outer < h →
          img.RGBA64At inner outer = recordAt data (outer * h + inner))
      ∧ (∀ x y, x < w → y < h → ¬ (y < w ∧ x < h) → img.RGBA64At x y = Color.zero) := by
  have ew := Uint32_be32_self w hw
  have eh := Uint32_be32_self h hh
  obtain ⟨d1, img, hrun, _, hwf, hpix⟩ :=
    DecodeRun_ok (be32 w) (be32 h) data rfl rfl (by rw [ew, eh]; exact hfit)
      (by rw [ew, eh]; exact hdata)
  rw [ew, eh] at hwf hpix
  refine ⟨img, ?_, hwf.1, ?_, ?_⟩
  · rw [List.append_assoc, List.append_assoc]
    exact Decode_of_run hrun
  · intro outer inner ho hi hiw hoh
    rw [hpix inner outer, if_pos ⟨ho, hi, hiw, hoh⟩]
  · intro x y _ _ hno
    rw [hpix x y, if_neg (fun hc => hno ⟨hc.1, hc.2.1⟩)]

/-- C1 (amended) at the 2x1 image with two records. -/
theorem C1_decode_stores_record_at_swapped_coordinate_witness :
    ∃ img, Decode (ffHeader ++ be32 2 ++ be32 1
          ++ [0, 1, 0, 2, 0, 3, 0, 4, 0, 5, 0, 6, 0, 7, 0, 8]) = .ret (some img, none)
      ∧ img.Rect = ⟨⟨0, 0⟩, ⟨2, 1⟩⟩
      ∧ (∀ outer inner, outer < 2 → inner < 1 → inner < 2 → outer < 1 →
          img.RGBA64At inner outer
            = recordAt [0, 1, 0, 2, 0, 3, 0, 4, 0, 5, 0, 6, 0, 7, 0, 8] (outer * 1 + inner))
      ∧ (∀ x y, x < 2 → y < 1 → ¬ (y < 2 ∧ x < 1) → img.RGBA64At x y = Color.zero) :=
  C1_decode_stores_record_at_swapped_coordinate 2 1
    [0, 1, 0, 2, 0, 3, 0, 4, 0, 5, 0, 6, 0, 7, 0, 8] (by decide) (by decide) (by decide)
    (by decide)

/-- C2 (the code at the failing input): the 2x1 grid with pixel `(0,0) =
(1,2,3,4)` and pixel `(1,0) = (5,6,7,8)`, encoded row-major, decodes without
error to an image whose pixel `(1,0)` is all-zero, not `(5,6,7,8)`: the second
record is written to `(x = 0, y = 1)`, outside the bounds, and dropped. -/
theorem C2_roundtrip_fails_on_2x1 :
    Encode 2 1 (fun x _ => if x = 0 then ⟨1, 2, 3, 4⟩ else ⟨5, 6, 7, 8⟩)
        = ffHeader ++ [0, 0, 0, 2] ++ [0, 0, 0, 1]
            ++ [0, 1, 0, 2, 0, 3, 0, 4, 0, 5, 0, 6, 0, 7, 0, 8]
      ∧ Decode (Encode 2 1 (fun x _ => if x = 0 then ⟨1, 2, 3, 4⟩ else ⟨5, 6, 7, 8⟩))
        = .ret (some { Pix := [0, 1, 0, 2, 0, 3, 0, 4, 0, 0, 0, 0, 0, 0, 0, 0]
                       Stride := 16, Rect := ⟨⟨0, 0⟩, ⟨2, 1⟩⟩ }, none)
      ∧ RGBA64.RGBA64At { Pix := [0, 1, 0, 2, 0, 3, 0, 4, 0, 0, 0, 0, 0, 0, 0, 0]
                          Stride := 16, Rect := ⟨⟨0, 0⟩, ⟨2, 1⟩⟩ } 0 0 = ⟨1, 2, 3, 4⟩
      ∧ RGBA64.RGBA64At { Pix := [0, 1, 0, 2, 0, 3, 0, 4, 0, 0, 0, 0, 0, 0, 0, 0]
                          Stride := 16, Rect := ⟨⟨0, 0⟩, ⟨2, 1⟩⟩ } 1 0 = ⟨0, 0, 0, 0⟩ := by
  refine ⟨by decide, by decide, by decide, by decide⟩


/-- C3: channel order and endianness. `parsePixel` on a stream that starts with
the bytes `b0 .. b7` returns `R = 256*b0 + b1`, `G = 256*b2 + b3`,
`B = 256*b4 + b5`, `A = 256*b6 + b7` and no error; `Decode` of the 1x1 image
whose pixel data is `b0 .. b7` returns an image whose pixel `(0,0)` has these
four channel values; the bytes `00 01 00 02 00 03 00 04` give
`R=1, G=2, B=3, A=4`. -/
theorem C3_channel_order_and_endianness (b0 b1 b2 b3 b4 b5 b6 b7 : Byte) (d : decoder)
    (rest : List Byte) :
    (parsePixel { d with r := b0 :: b1 :: b2 :: b3 :: b4 :: b5 :: b6 :: b7 :: rest }).2
        = ({ R := 256 * b0.val + b1.val, G := 256 * b2.val + b3.val
             B := 256 * b4.val + b5.val, A := 256 * b6.val + b7.val }, none)
      ∧ (∃ img, Decode (ffHeader ++ be32 1 ++ be32 1 ++ [b0, b1, b2, b3, b4, b5, b6, b7])
            = .ret (some img, none)
          ∧ img.RGBA64At 0 0
            = { R := 256 * b0.val + b1.val, G := 256 * b2.val + b3.val
                B := 256 * b4.val + b5.val, A := 256 * b6.val + b7.val })
      ∧ (∃ img, Decode (ffHeader ++ [0, 0, 0, 1] ++ [0, 0, 0, 1] ++ [0, 1, 0, 2, 0, 3, 0, 4])
            = .ret (some img, none)
          ∧ img.RGBA64At 0 0 = { R := 1, G := 2, B := 3, A := 4 }) := by
  have one : Uint32 (be32 1) = 1 := Uint32_be32_self 1 (by norm_num)
  have key : ∀ c0 c1 c2 c3 c4 c5 c6 c7 : Byte,
      ∃ img, Decode (ffHeader ++ be32 1 ++ be32 1 ++ [c0, c1, c2, c3, c4, c5, c6, c7])
            = .ret (some img, none)
          ∧ img.RGBA64At 0 0
            = { R := 256 * c0.val + c1.val, G := 256 * c2.val + c3.val
                B := 256 * c4.val + c5.val, A := 256 * c6.val + c7.val } := by
    intro c0 c1 c2 c3 c4 c5 c6 c7
    obtain ⟨d1, img, hrun, _, _, hpix⟩ :=
      DecodeRun_ok (be32 1) (be32 1) [c0, c1, c2, c3, c4, c5, c6, c7] rfl rfl
        (by rw [one]; decide) (by rw [one]; simp)
    refine ⟨img, ?_, ?_⟩
    · rw [List.append_assoc, List.append_assoc]
      exact Decode_of_run hrun
    · rw [hpix 0 0, one, if_pos (by omega), recordAt_cons]
  refine ⟨?_, key b0 b1 b2 b3 b4 b5 b6 b7, ?_⟩
  · rw [parsePixel_cons _ b0 b1 b2 b3 b4 b5 b6 b7 rest rfl]
  · exact key 0 1 0 2 0 3 0 4

/-- C4: header rejection. On every stream of at least 8 bytes whose first 8
bytes differ from `"farbfeld"`, both `Decode` and `DecodeConfig` fail with
`FormatError("not a farbfeld file")`, whatever follows the first 8 bytes. -/
theorem C4_header_rejection (s : List Byte) (hlen : 8 ≤ s.length)
    (hne : s.take 8 ≠ ffHeader) :
    Decode s = .ret (none, some (.FormatError "not a farbfeld file"))
      ∧ DecodeConfig s = (Config.zero, some (.FormatError "not a farbfeld file")) :=
  ⟨Decode_of_bad_header s hlen hne, DecodeConfig_of_bad_header s hlen hne⟩

/-- C4 at the stream `"abcdefgh"` followed by a valid-looking 1x1 body. -/
theorem C4_header_rejection_witness :
    Decode ([0x61, 0x62, 0x63, 0x64, 0x65, 0x66, 0x67, 0x68, 0, 0, 0, 1, 0, 0, 0, 1,
        0, 1, 0, 2, 0, 3, 0, 4])
        = .ret (none, some (.FormatError "not a farbfeld file"))
      ∧ DecodeConfig ([0x61, 0x62, 0x63, 0x64, 0x65, 0x66, 0x67, 0x68, 0, 0, 0, 1,
        0, 0, 0, 1, 0, 1, 0, 2, 0, 3, 0, 4])
        = (Config.zero, some (.FormatError "not a farbfeld file")) :=
  C4_header_rejection _ (by decide) (by decide)

/-- C5: on every stream of at least 16 bytes that starts with the magic,
`DecodeConfig` succeeds and reports `Width` equal to the big-endian unsigned
32-bit value of bytes 8..11 and `Height` equal to that of bytes 12..15; no
value in `[0, 2^32 - 1]` is rejected for either field: every pair `(w, h)` of
such values is reported back from the stream that encodes it. -/
theorem C5_decode_config_dimensions :
    (∀ s : List Byte, 16 ≤ s.length → s.take 8 = ffHeader →
        (DecodeConfig s).2 = none
        ∧ (DecodeConfig s).1.Width
            = 2 ^ 24 * (s.getD 8 0).val + 2 ^ 16 * (s.getD 9 0).val
              + 2 ^ 8 * (s.getD 10 0).val + (s.getD 11 0).val
        ∧ (DecodeConfig s).1.Height
            = 2 ^ 24 * (s.getD 12 0).val + 2 ^ 16 * (s.getD 13 0).val
              + 2 ^ 8 * (s.getD 14 0).val + (s.getD 15 0).val)
      ∧ (∀ (w h : Nat) (tail : List Byte), w < 2 ^ 32 → h < 2 ^ 32 →
          (DecodeConfig (ffHeader ++ be32 w ++ be32 h ++ tail)).2 = none
          ∧ (DecodeConfig (ffHeader ++ be32 w ++ be32 h ++ tail)).1.Width = w
          ∧ (DecodeConfig (ffHeader ++ be32 w ++ be32 h ++ tail)).1.Height = h) := by
  constructor
  · intro s h16 hm
    rw [DecodeConfig_of_dims s hm h16]
    refine ⟨rfl, ?_, ?_⟩
    · show Uint32 ((s.drop 8).take 4) = _
      rw [Uint32_getD, getD_take _ _ _ (by omega), getD_take _ _ _ (by omega),
        getD_take _ _ _ (by omega), getD_take _ _ _ (by omega), getD_drop, getD_drop,
        getD_drop, getD_drop]
    · show Uint32 ((s.drop 12).take 4) = _
      rw [Uint32_getD, getD_take _ _ _ (by omega), getD_take _ _ _ (by omega),
        getD_take _ _ _ (by omega), getD_take _ _ _ (by omega), getD_drop, getD_drop,
        getD_drop, getD_drop]
  · intro w h tail hw hh
    have hm : (ffHeader ++ be32 w ++ be32 h ++ tail).take 8 = ffHeader := by
      rw [List.append_assoc, List.append_assoc]
      exact List.take_left' rfl
    have h16 : 16 ≤ (ffHeader ++ be32 w ++ be32 h ++ tail).length := by
      simp only [List.length_append, be32_length, ffHeader, List.length_cons, List.length_nil]
      omega
    have e1 : ((ffHeader ++ be32 w ++ be32 h ++ tail).drop 8).take 4 = be32 w := by
      have hd : (ffHeader ++ (be32 w ++ (be32 h ++ tail))).drop 8
          = be32 w ++ (be32 h ++ tail) := List.drop_left' rfl
      rw [List.append_assoc, List.append_assoc, hd]
      exact List.take_left' rfl
    have e2 : ((ffHeader ++ be32 w ++ be32 h ++ tail).drop 12).take 4 = be32 h := by
      have hd : ((ffHeader ++ be32 w) ++ (be32 h ++ tail)).drop 12 = be32 h ++ tail :=
        List.drop_left' rfl
      rw [List.append_assoc, hd]
      exact List.take_left' rfl
    rw [DecodeConfig_of_dims _ hm h16, e1, e2, Uint32_be32_self w hw, Uint32_be32_self h hh]
    exact ⟨rfl, rfl, rfl⟩

/-- C5 at the 16-byte stream declaring `0xFFFFFFFF` by `0`, and at the pair
`(0xFFFFFFFF, 0)`. -/
theorem C5_decode_config_dimensions_witness :
    ((DecodeConfig (ffHeader ++ [255, 255, 255, 255, 0, 0, 0, 0])).2 = none
        ∧ (DecodeConfig (ffHeader ++ [255, 255, 255, 255, 0, 0, 0, 0])).1.Width
            = 2 ^ 24 * 255 + 2 ^ 16 * 255 + 2 ^ 8 * 255 + 255
        ∧ (DecodeConfig (ffHeader ++ [255, 255, 255, 255, 0, 0, 0, 0])).1.Height
            = 2 ^ 24 * 0 + 2 ^ 16 * 0 + 2 ^ 8 * 0 + 0)
      ∧ ((DecodeConfig (ffHeader ++ be32 4294967295 ++ be32 0 ++ [])).2 = none
          ∧ (DecodeConfig (ffHeader ++ be32 4294967295 ++ be32 0 ++ [])).1.Width = 4294967295
          ∧ (DecodeConfig (ffHeader ++ be32 4294967295 ++ be32 0 ++ [])).1.Height = 0) :=
  ⟨C5_decode_config_dimensions.1 (ffHeader ++ [255, 255, 255, 255, 0, 0, 0, 0])
      (by decide) (by decide),
    C5_decode_config_dimensions.2 4294967295 0 [] (by decide) (by decide)⟩

/-- C6 (as stated, refuted): for the complete file declaring `32769` by
`1073709057` (`2^45 + 1` all-zero pixel records, a buffer of `2^48 + 8` bytes),
`Decode` on the first `23 = 16 + 8*1 - 1` bytes does not fail with
`io.ErrUnexpectedEOF` and `Decode` on the whole file does not succeed: both
calls panic in `make`, inside `image.NewRGBA64`, before the first pixel
read. -/
theorem C6_counterexample_huge_dimensions :
    (List.replicate (8 * (32769 * 1073709057)) (0 : Byte)).length
        = 8 * (32769 * 1073709057)
      ∧ (1 ≤ 1 ∧ 1 ≤ 32769 * 1073709057 ∧ 23 = 16 + 8 * 1 - 1)
      ∧ Decode ((ffHeader ++ be32 32769 ++ be32 1073709057
            ++ List.replicate (8 * (32769 * 1073709057)) 0).take 23)
          = .panic "runtime error: makeslice: len out of range"
      ∧ Decode (ffHeader ++ be32 32769 ++ be32 1073709057
            ++ List.replicate (8 * (32769 * 1073709057)) 0)
          = .panic "runtime error: makeslice: len out of range" := by
  have hmsg : allocPanic (8 * 32769 * 1073709057)
      = "runtime error: makeslice: len out of range" := by decide
  have hrun : ∀ data : List Byte,
      DecodeRun (ffHeader ++ (be32 32769 ++ (be32 1073709057 ++ data)))
        = .panic "runtime error: makeslice: len out of range" := by
    intro data
    have h := DecodeRun_abort (be32 32769) (be32 1073709057) data rfl rfl
      (by rw [Uint32_be32_self _ (by norm_num), Uint32_be32_self _ (by norm_num)]; decide)
    rw [Uint32_be32_self _ (by norm_num), Uint32_be32_self _ (by norm_num), hmsg] at h
    exact h
  refine ⟨List.length_replicate _ _, by norm_num, ?_, ?_⟩
  · rw [take_file _ _ _ 23 (by norm_num)]
    exact Decode_of_run_panic (hrun _)
  · rw [List.append_assoc, List.append_assoc]
    exact Decode_of_run_panic (hrun _)

/-- C6 (amended): truncation one byte short of each boundary. For every
complete farbfeld file `F` (magic, `w`, `h`, `w*h` pixel records), `Decode` on
the first `L` bytes of `F` fails with `io.ErrUnexpectedEOF` for `L` in
`{7, 11, 15}`; and when the declared dimensions satisfy `8*w*h ≤ maxAlloc` (the
buffer is one that `make` accepts), it also does for every `L = 16 + 8k - 1`
with `1 ≤ k ≤ w*h`, while `Decode` on the whole of `F` succeeds. -/
theorem C6_truncation_one_byte_short (w h : Nat) (data : List Byte)
    (hw : w < 2 ^ 32) (hh : h < 2 ^ 32) (hdata : data.length = 8 * (w * h)) :
    (∀ L, L = 7 ∨ L = 11 ∨ L = 15 →
        Decode ((ffHeader ++ be32 w ++ be32 h ++ data).take L)
          = .ret (none, some .ErrUnexpectedEOF))
      ∧ (8 * w * h ≤ maxAlloc →
          (∀ k, 1 ≤ k → k ≤ w * h →
            Decode ((ffHeader ++ be32 w ++ be32 h ++ data).take (16 + 8 * k - 1))
              = .ret (none, some .ErrUnexpectedEOF))
          ∧ ∃ img, Decode (ffHeader ++ be32 w ++ be32 h ++ data) = .ret (some img, none)) := by
  have ew := Uint32_be32_self w hw
  have eh := Uint32_be32_self h hh
  have hlenF := file_length w h data
  constructor
  · have hdims : ∀ n, 8 < n → n < 16 →
        Decode ((ffHeader ++ be32 w ++ be32 h ++ data).take n)
          = .ret (none, some .ErrUnexpectedEOF) := by
      intro n h8 h16
      have hl : ((ffHeader ++ be32 w ++ be32 h ++ data).take n).length = n := by
        rw [List.length_take, hlenF]; omega
      have hm : ((ffHeader ++ be32 w ++ be32 h ++ data).take n).take 8 = ffHeader := by
        rw [List.take_take, Nat.min_eq_left (by omega)]
        exact file_take_eight w h data
      rw [Decode_of_lt_dims _ hm (by rw [hl]; exact h16), hl, if_neg (by omega)]
    intro L hL
    rcases hL with rfl | rfl | rfl
    · exact Decode_of_lt_header _ (by rw [List.length_take, hlenF]; omega)
    · exact hdims 11 (by omega) (by omega)
    · exact hdims 15 (by omega) (by omega)
  · intro hfit
    constructor
    · intro k hk1 hk2
      rw [take_file w h data _ (by omega)]
      have hl : (data.take (16 + 8 * k - 1 - 16)).length = 8 * k - 1 := by
        rw [List.length_take, hdata]; omega
      obtain ⟨d1, hrun⟩ :=
        DecodeRun_short (be32 w) (be32 h) (data.take (16 + 8 * k - 1 - 16)) rfl rfl
          (by rw [ew, eh]; exact hfit) (by rw [ew, eh, hl]; omega)
      rw [Decode_of_run hrun, hl, if_neg (by omega)]
    · obtain ⟨d1, img, hrun, _⟩ :=
        DecodeRun_ok (be32 w) (be32 h) data rfl rfl (by rw [ew, eh]; exact hfit)
          (by rw [ew, eh, hdata])
      refine ⟨img, ?_⟩
      rw [List.append_assoc, List.append_assoc]
      exact Decode_of_run hrun

/-- C6 (amended) at the complete 1x2 file: cut to 15 bytes, cut to
`31 = 16 + 8*2 - 1` bytes, and whole. -/
theorem C6_truncation_one_byte_short_witness :
    Decode ((ffHeader ++ be32 1 ++ be32 2
          ++ [0, 1, 0, 2, 0, 3, 0, 4, 0, 5, 0, 6, 0, 7, 0, 8]).take 15)
        = .ret (none, some .ErrUnexpectedEOF)
      ∧ Decode ((ffHeader ++ be32 1 ++ be32 2
          ++ [0, 1, 0, 2, 0, 3, 0, 4, 0, 5, 0, 6, 0, 7, 0, 8]).take (16 + 8 * 2 - 1))
        = .ret (none, some .ErrUnexpectedEOF)
      ∧ ∃ img, Decode (ffHeader ++ be32 1 ++ be32 2
          ++ [0, 1, 0, 2, 0, 3, 0, 4, 0, 5, 0, 6, 0, 7, 0, 8]) = .ret (some img, none) :=
  ⟨(C6_truncation_one_byte_short 1 2 [0, 1, 0, 2, 0, 3, 0, 4, 0, 5, 0, 6, 0, 7, 0, 8]
      (by decide) (by decide) (by decide)).1 15 (Or.inr (Or.inr rfl)),
    ((C6_truncation_one_byte_short 1 2 [0, 1, 0, 2, 0, 3, 0, 4, 0, 5, 0, 6, 0, 7, 0, 8]
      (by decide) (by decide) (by decide)).2 (by decide)).1 2 (by decide) (by decide),
    ((C6_truncation_one_byte_short 1 2 [0, 1, 0, 2, 0, 3, 0, 4, 0, 5, 0, 6, 0, 7, 0, 8]
      (by decide) (by decide) (by decide)).2 (by decide)).2⟩

/-- C7 (the code at the failing inputs): for the complete 1x2 file, `Decode`
on its first 8 bytes (no dimension byte available) and on its first 24 bytes
(the stream ends between the two pixel records) returns the plain `io.EOF`,
not `io.ErrUnexpectedEOF`; the whole file decodes. -/
theorem C7_short_read_returns_plain_EOF :
    Decode ((ffHeader ++ [0, 0, 0, 1] ++ [0, 0, 0, 2]
          ++ [0, 1, 0, 2, 0, 3, 0, 4, 0, 5, 0, 6, 0, 7, 0, 8]).take 8)
        = .ret (none, some .EOF)
      ∧ Decode ((ffHeader ++ [0, 0, 0, 1] ++ [0, 0, 0, 2]
          ++ [0, 1, 0, 2, 0, 3, 0, 4, 0, 5, 0, 6, 0, 7, 0, 8]).take 24)
        = .ret (none, some .EOF)
      ∧ (Decode (ffHeader ++ [0, 0, 0, 1] ++ [0, 0, 0, 2]
          ++ [0, 1, 0, 2, 0, 3, 0, 4, 0, 5, 0, 6, 0, 7, 0, 8])
        = .ret (some { Pix := [0, 1, 0, 2, 0, 3, 0, 4, 0, 0, 0, 0, 0, 0, 0, 0]
                       Stride := 8, Rect := ⟨⟨0, 0⟩, ⟨1, 2⟩⟩ }, none)) := by
  refine ⟨by decide, by decide, by decide⟩

/-- C8 (the code at the failing input): on the 16-byte stream made of the magic
and the dimensions 1x1, `DecodeConfig` succeeds and reports `Width = 1`,
`Height = 1`, and `Decode` fails with the plain `io.EOF`, not with
`io.ErrUnexpectedEOF`. -/
theorem C8_decode_of_header_only_returns_plain_EOF :
    (DecodeConfig (ffHeader ++ [0, 0, 0, 1] ++ [0, 0, 0, 1])).2 = none
      ∧ (DecodeConfig (ffHeader ++ [0, 0, 0, 1] ++ [0, 0, 0, 1])).1.Width = 1
      ∧ (DecodeConfig (ffHeader ++ [0, 0, 0, 1] ++ [0, 0, 0, 1])).1.Height = 1
      ∧ Decode (ffHeader ++ [0, 0, 0, 1] ++ [0, 0, 0, 1]) = .ret (none, some .EOF) := by
  refine ⟨by decide, by decide, by decide, by decide⟩

/-- C9: short header. On every stream of fewer than 8 bytes, the empty stream
included and whatever the bytes are, both `Decode` and `DecodeConfig` fail with
`io.ErrUnexpectedEOF` (not with `io.EOF`, not with a `FormatError`). -/
theorem C9_short_header (s : List Byte) (hlen : s.length < 8) :
    Decode s = .ret (none, some .ErrUnexpectedEOF)
      ∧ DecodeConfig s = (Config.zero, some .ErrUnexpectedEOF) :=
  ⟨Decode_of_lt_header s hlen, DecodeConfig_of_lt_header s hlen⟩

/-- C9 at the empty stream. -/
theorem C9_short_header_witness :
    Decode [] = .ret (none, some .ErrUnexpectedEOF)
      ∧ DecodeConfig [] = (Config.zero, some .ErrUnexpectedEOF) :=
  C9_short_header [] (by decide)

/-- C10: short dimensions in the metadata-only path. On every stream that
starts with the magic and has total length `L` with `8 ≤ L < 16` (`L = 8` and
`L = 12` included), `DecodeConfig` fails with `io.ErrUnexpectedEOF` and returns
the zero `Config`. -/
theorem C10_decode_config_short_dimensions (s : List Byte) (hm : s.take 8 = ffHeader)
    (_h8 : 8 ≤ s.length) (h16 : s.length < 16) :
    DecodeConfig s = (Config.zero, some .ErrUnexpectedEOF) :=
  DecodeConfig_of_lt_dims s hm h16

/-- C10 at the 12-byte stream: magic, a whole width, no height byte. -/
theorem C10_decode_config_short_dimensions_witness :
    DecodeConfig (ffHeader ++ [0, 0, 0, 1]) = (Config.zero, some .ErrUnexpectedEOF) :=
  C10_decode_config_short_dimensions (ffHeader ++ [0, 0, 0, 1]) (by decide) (by decide)
    (by decide)

/-- C11 (as stated, refuted): the 23-byte stream made of the magic, the
dimensions `32769` by `1073709057` (a buffer of `2^48 + 8` bytes) and 7 bytes
of pixel data is truncated (it has fewer than `8*w*h` bytes after the
dimensions), yet `Decode` does not return an error with a nil image on it: it
panics in `make`, inside `image.NewRGBA64`. -/
theorem C11_counterexample_truncated_huge_dimensions :
    (ffHeader ++ [0, 0, 0x80, 0x01] ++ [0x3f, 0xff, 0x80, 0x01]
        ++ [0, 0, 0, 0, 0, 0, 0]).take 8 = ffHeader
      ∧ declaredWidth (ffHeader ++ [0, 0, 0x80, 0x01] ++ [0x3f, 0xff, 0x80, 0x01]
          ++ [0, 0, 0, 0, 0, 0, 0]) = 32769
      ∧ declaredHeight (ffHeader ++ [0, 0, 0x80, 0x01] ++ [0x3f, 0xff, 0x80, 0x01]
          ++ [0, 0, 0, 0, 0, 0, 0]) = 1073709057
      ∧ Decode (ffHeader ++ [0, 0, 0x80, 0x01] ++ [0x3f, 0xff, 0x80, 0x01]
          ++ [0, 0, 0, 0, 0, 0, 0])
          = .panic "runtime error: makeslice: len out of range"
      ∧ ¬ ∃ e, Decode (ffHeader ++ [0, 0, 0x80, 0x01] ++ [0x3f, 0xff, 0x80, 0x01]
          ++ [0, 0, 0, 0, 0, 0, 0]) = .ret (none, some e) := by
  have hp : Decode (ffHeader ++ [0, 0, 0x80, 0x01] ++ [0x3f, 0xff, 0x80, 0x01]
        ++ [0, 0, 0, 0, 0, 0, 0])
      = .panic "runtime error: makeslice: len out of range" := by decide
  refine ⟨by decide, by decide, by decide, hp, ?_⟩
  rintro ⟨e, he⟩
  rw [hp] at he
  cases he

/-- C11 (amended): no partial image. On every stream whose declared dimensions,
when the magic and the 8 dimension bytes are present, satisfy
`8*w*h ≤ maxAlloc` (the buffer is one that `make` accepts), `Decode` returns a
non-nil image with a nil error exactly when the stream starts with the magic,
has 8 dimension bytes declaring `(w, h)` and has at least `8*w*h` further
bytes; on every other such stream (bad magic or truncated anywhere) it returns
a non-nil error together with a nil image. -/
theorem C11_no_partial_image (s : List Byte)
    (hfit : s.take 8 = ffHeader → 16 ≤ s.length →
      8 * declaredWidth s * declaredHeight s ≤ maxAlloc) :
    ((∃ img, Decode s = .ret (some img, none))
        ↔ (s.take 8 = ffHeader ∧ 16 ≤ s.length
            ∧ 16 + 8 * (declaredWidth s * declaredHeight s) ≤ s.length))
      ∧ (¬ (s.take 8 = ffHeader ∧ 16 ≤ s.length
            ∧ 16 + 8 * (declaredWidth s * declaredHeight s) ≤ s.length)
          → ∃ e, Decode s = .ret (none, some e)) := by
  have hnh : ¬ (s.take 8 = ffHeader ∧ 16 ≤ s.length
      ∧ maxAlloc < 8 * declaredWidth s * declaredHeight s) := by
    rintro ⟨hm, h16, hbig⟩
    have := hfit hm h16
    omega
  refine ⟨⟨?_, ?_⟩, fun hnc => Decode_of_incomplete s hnh hnc⟩
  · rintro ⟨img, himg⟩
    by_contra hnc
    obtain ⟨e, he⟩ := Decode_of_incomplete s hnh hnc
    rw [he] at himg
    cases himg
  · rintro ⟨hm, h16, hdata⟩
    obtain ⟨d, img, hrun, _⟩ := DecodeRun_fit s hm h16 (hfit hm h16) hdata
    exact ⟨img, Decode_of_run hrun⟩

/-- C11 (amended) at the complete 1x1 file. -/
theorem C11_no_partial_image_witness :
    ((∃ img, Decode (ffHeader ++ [0, 0, 0, 1, 0, 0, 0, 1, 0, 1, 0, 2, 0, 3, 0, 4])
          = .ret (some img, none))
        ↔ ((ffHeader ++ [0, 0, 0, 1, 0, 0, 0, 1, 0, 1, 0, 2, 0, 3, 0, 4]).take 8 = ffHeader
            ∧ 16 ≤ (ffHeader ++ [0, 0, 0, 1, 0, 0, 0, 1, 0, 1, 0, 2, 0, 3, 0, 4]).length
            ∧ 16 + 8 * (declaredWidth (ffHeader ++ [0, 0, 0, 1, 0, 0, 0, 1, 0, 1, 0, 2, 0, 3, 0, 4])
                * declaredHeight (ffHeader ++ [0, 0, 0, 1, 0, 0, 0, 1, 0, 1, 0, 2, 0, 3, 0, 4]))
              ≤ (ffHeader ++ [0, 0, 0, 1, 0, 0, 0, 1, 0, 1, 0, 2, 0, 3, 0, 4]).length))
      ∧ (¬ ((ffHeader ++ [0, 0, 0, 1, 0, 0, 0, 1, 0, 1, 0, 2, 0, 3, 0, 4]).take 8 = ffHeader
            ∧ 16 ≤ (ffHeader ++ [0, 0, 0, 1, 0, 0, 0, 1, 0, 1, 0, 2, 0, 3, 0, 4]).length
            ∧ 16 + 8 * (declaredWidth (ffHeader ++ [0, 0, 0, 1, 0, 0, 0, 1, 0, 1, 0, 2, 0, 3, 0, 4])
                * declaredHeight (ffHeader ++ [0, 0, 0, 1, 0, 0, 0, 1, 0, 1, 0, 2, 0, 3, 0, 4]))
              ≤ (ffHeader ++ [0, 0, 0, 1, 0, 0, 0, 1, 0, 1, 0, 2, 0, 3, 0, 4]).length)
          → ∃ e, Decode (ffHeader ++ [0, 0, 0, 1, 0, 0, 0, 1, 0, 1, 0, 2, 0, 3, 0, 4])
              = .ret (none, some e)) :=
  C11_no_partial_image (ffHeader ++ [0, 0, 0, 1, 0, 0, 0, 1, 0, 1, 0, 2, 0, 3, 0, 4])
    (fun _ _ => by decide)

/-- C12 (as stated, refuted): for the complete file `F` declaring `32769` by
`1073709057` (`2^45 + 1` all-zero pixel records, a buffer of `2^48 + 8` bytes)
and the one-byte tail `T = [0]`, `Decode` on `F` followed by `T` does not
succeed: it panics in `make`, inside `image.NewRGBA64`. -/
theorem C12_counterexample_huge_dimensions :
    (List.replicate (8 * (32769 * 1073709057)) (0 : Byte)).length
        = 8 * (32769 * 1073709057)
      ∧ Decode (ffHeader ++ be32 32769 ++ be32 1073709057
            ++ List.replicate (8 * (32769 * 1073709057)) 0 ++ [0])
          = .panic "runtime error: makeslice: len out of range" := by
  have hmsg : allocPanic (8 * 32769 * 1073709057)
      = "runtime error: makeslice: len out of range" := by decide
  have hrun := DecodeRun_abort (be32 32769) (be32 1073709057)
    (List.replicate (8 * (32769 * 1073709057)) 0 ++ [0]) rfl rfl
    (by rw [Uint32_be32_self _ (by norm_num), Uint32_be32_self _ (by norm_num)]; decide)
  rw [Uint32_be32_self _ (by norm_num), Uint32_be32_self _ (by norm_num), hmsg] at hrun
  refine ⟨List.length_replicate _ _, ?_⟩
  rw [List.append_assoc, List.append_assoc, List.append_assoc]
  exact Decode_of_run_panic hrun

/-- C12 (amended): `Decode` consumes exactly `16 + 8*w*h` bytes. For every
complete farbfeld file `F` declaring `(w, h)` with `8*w*h ≤ maxAlloc` (square
or not; the buffer is one that `make` accepts) and every byte sequence `T`,
`F` has `16 + 8*w*h` bytes, `Decode` on `F` followed by `T` succeeds, returns
the same image as `Decode` on `F` alone, and leaves exactly `T` unread in the
stream. -/
theorem C12_decode_consumes_exactly_the_file (w h : Nat) (data T : List Byte)
    (hw : w < 2 ^ 32) (hh : h < 2 ^ 32) (hfit : 8 * w * h ≤ maxAlloc)
    (hdata : data.length = 8 * (w * h)) :
    (ffHeader ++ be32 w ++ be32 h ++ data).length = 16 + 8 * (w * h)
      ∧ ∃ d img, DecodeRun (ffHeader ++ be32 w ++ be32 h ++ data ++ T)
            = .ret (d, some img, none)
          ∧ d.r = T
          ∧ Decode (ffHeader ++ be32 w ++ be32 h ++ data ++ T) = .ret (some img, none)
          ∧ Decode (ffHeader ++ be32 w ++ be32 h ++ data) = .ret (some img, none) := by
  have ew := Uint32_be32_self w hw
  have eh := Uint32_be32_self h hh
  obtain ⟨d1, d2, img, hrun1, hrun2, hr1, _⟩ :=
    DecodeRun_frame (be32 w) (be32 h) data T rfl rfl (by rw [ew, eh]; exact hfit)
      (by rw [ew, eh]; exact hdata)
  have hs1 : ffHeader ++ be32 w ++ be32 h ++ data ++ T
      = ffHeader ++ (be32 w ++ (be32 h ++ (data ++ T))) := by
    simp only [List.append_assoc]
  have hs2 : ffHeader ++ be32 w ++ be32 h ++ data
      = ffHeader ++ (be32 w ++ (be32 h ++ data)) := by
    simp only [List.append_assoc]
  refine ⟨by rw [file_length, hdata], d1, img, ?_, hr1, ?_, ?_⟩
  · rw [hs1]; exact hrun1
  · rw [hs1]; exact Decode_of_run hrun1
  · rw [hs2]; exact Decode_of_run hrun2

/-- C12 (amended) at the complete 2x1 file followed by the tail `[9, 9, 9]`. -/
theorem C12_decode_consumes_exactly_the_file_witness :
    (ffHeader ++ be32 2 ++ be32 1
        ++ [0, 1, 0, 2, 0, 3, 0, 4, 0, 5, 0, 6, 0, 7, 0, 8]).length = 16 + 8 * (2 * 1)
      ∧ ∃ d img, DecodeRun (ffHeader ++ be32 2 ++ be32 1
              ++ [0, 1, 0, 2, 0, 3, 0, 4, 0, 5, 0, 6, 0, 7, 0, 8] ++ [9, 9, 9])
            = .ret (d, some img, none)
          ∧ d.r = [9, 9, 9]
          ∧ Decode (ffHeader ++ be32 2 ++ be32 1
              ++ [0, 1, 0, 2, 0, 3, 0, 4, 0, 5, 0, 6, 0, 7, 0, 8] ++ [9, 9, 9])
            = .ret (some img, none)
          ∧ Decode (ffHeader ++ be32 2 ++ be32 1
              ++ [0, 1, 0, 2, 0, 3, 0, 4, 0, 5, 0, 6, 0, 7, 0, 8])
            = .ret (some img, none) :=
  C12_decode_consumes_exactly_the_file 2 1 [0, 1, 0, 2, 0, 3, 0, 4, 0, 5, 0, 6, 0, 7, 0, 8]
    [9, 9, 9] (by decide) (by decide) (by decide) (by decide)

/-- C13: `DecodeConfig` consumes exactly 16 bytes and never touches pixel
data. On every stream on which `DecodeConfig` succeeds, the stream has at least
16 bytes and is left positioned at offset 16, and the returned `Config` (and
error) is the same for every stream that agrees with it on the first 16
bytes. -/
theorem C13_decode_config_consumes_16_bytes (s : List Byte)
    (hok : (DecodeConfig s).2 = none) :
    16 ≤ s.length ∧ (DecodeConfigRun s).1.r = s.drop 16
      ∧ ∀ s2 : List Byte, s2.take 16 = s.take 16 → DecodeConfig s2 = DecodeConfig s := by
  obtain ⟨hm, h16⟩ := DecodeConfig_ok_inv s hok
  refine ⟨h16, (DecodeConfigRun_of_dims s hm h16).1, ?_⟩
  intro s2 h2
  have hl : 16 ≤ s2.length := by
    have := congrArg List.length h2
    rw [List.length_take, List.length_take] at this
    omega
  have hm2 : s2.take 8 = ffHeader := by
    rw [take_of_take_eq 8 (by omega) h2]
    exact hm
  have hw : (s2.drop 8).take 4 = (s.drop 8).take 4 :=
    drop_take_of_take_eq 8 4 (by omega) h2
  have hh : (s2.drop 12).take 4 = (s.drop 12).take 4 :=
    drop_take_of_take_eq 12 4 (by omega) h2
  rw [DecodeConfig_of_dims s2 hm2 hl, DecodeConfig_of_dims s hm h16, hw, hh]

/-- C13 at the complete 1x1 file. -/
theorem C13_decode_config_consumes_16_bytes_witness :
    16 ≤ (ffHeader ++ [0, 0, 0, 1, 0, 0, 0, 1, 0, 1, 0, 2, 0, 3, 0, 4]).length
      ∧ (DecodeConfigRun (ffHeader ++ [0, 0, 0, 1, 0, 0, 0, 1, 0, 1, 0, 2, 0, 3, 0, 4])).1.r
          = (ffHeader ++ [0, 0, 0, 1, 0, 0, 0, 1, 0, 1, 0, 2, 0, 3, 0, 4]).drop 16
      ∧ ∀ s2 : List Byte,
          s2.take 16 = (ffHeader ++ [0, 0, 0, 1, 0, 0, 0, 1, 0, 1, 0, 2, 0, 3, 0, 4]).take 16 →
          DecodeConfig s2
            = DecodeConfig (ffHeader ++ [0, 0, 0, 1, 0, 0, 0, 1, 0, 1, 0, 2, 0, 3, 0, 4]) :=
  C13_decode_config_consumes_16_bytes
    (ffHeader ++ [0, 0, 0, 1, 0, 0, 0, 1, 0, 1, 0, 2, 0, 3, 0, 4]) (by decide)

/-- C14: zero-size image. On every 16-byte stream made of the magic and
dimensions `(w, h)` with `w = 0` or `h = 0` and no pixel data, `Decode`
succeeds and returns an image with bounds `(0,0)-(w,h)` that contains no pixel
(no pixel bytes, no point inside the bounds), and `DecodeConfig` on the same
input succeeds and reports `Width = w` and `Height = h`. -/
theorem C14_zero_size_image (w h : Nat) (hw : w < 2 ^ 32) (hh : h < 2 ^ 32)
    (hz : w = 0 ∨ h = 0) :
    (ffHeader ++ be32 w ++ be32 h).length = 16
      ∧ (∃ img, Decode (ffHeader ++ be32 w ++ be32 h) = .ret (some img, none)
          ∧ img.Rect = ⟨⟨0, 0⟩, ⟨w, h⟩⟩ ∧ img.Pix = []
          ∧ ∀ x y, Point.In ⟨x, y⟩ img.Rect = false)
      ∧ (DecodeConfig (ffHeader ++ be32 w ++ be32 h)).2 = none
      ∧ (DecodeConfig (ffHeader ++ be32 w ++ be32 h)).1.Width = w
      ∧ (DecodeConfig (ffHeader ++ be32 w ++ be32 h)).1.Height = h := by
  have ew := Uint32_be32_self w hw
  have eh := Uint32_be32_self h hh
  have hzero : w * h = 0 := by
    rcases hz with rfl | rfl <;> simp
  have hs : ffHeader ++ be32 w ++ be32 h = ffHeader ++ (be32 w ++ (be32 h ++ [])) := by
    rw [List.append_nil, List.append_assoc]
  refine ⟨rfl, ?_, ?_⟩
  · obtain ⟨d1, img, hrun, _, hwf, _⟩ :=
      DecodeRun_ok (be32 w) (be32 h) [] rfl rfl
        (by rw [ew, eh, Nat.mul_assoc, hzero]; norm_num) (by rw [ew, eh, hzero]; simp)
    rw [ew, eh] at hwf
    refine ⟨img, ?_, hwf.1, ?_, ?_⟩
    · rw [hs]
      exact Decode_of_run hrun
    · have hl := hwf.2.2
      rw [Nat.mul_assoc, hzero] at hl
      exact List.length_eq_zero.mp hl
    · intro x y
      rw [hwf.1]
      cases hb : Point.In ⟨x, y⟩ ⟨⟨0, 0⟩, ⟨w, h⟩⟩
      · rfl
      · have := (In_zero_rect x y w h).1 hb
        omega
  · have hm : (ffHeader ++ be32 w ++ be32 h).take 8 = ffHeader := by
      rw [List.append_assoc]
      exact List.take_left' rfl
    have e1 : ((ffHeader ++ be32 w ++ be32 h).drop 8).take 4 = be32 w := by
      have hd : (ffHeader ++ (be32 w ++ be32 h)).drop 8 = be32 w ++ be32 h :=
        List.drop_left' rfl
      rw [List.append_assoc, hd]
      exact List.take_left' rfl
    have e2 : ((ffHeader ++ be32 w ++ be32 h).drop 12).take 4 = be32 h := by
      have hd : ((ffHeader ++ be32 w) ++ be32 h).drop 12 = be32 h := List.drop_left' rfl
      rw [hd]
      exact List.take_of_length_le (by rw [be32_length])
    rw [DecodeConfig_of_dims _ hm (by
      simp only [List.length_append, be32_length, ffHeader, List.length_cons,
        List.length_nil]
      omega), e1, e2, ew, eh]
    exact ⟨rfl, rfl, rfl⟩

/-- C14 at the 16-byte stream declaring 0 by 0. -/
theorem C14_zero_size_image_witness :
    (ffHeader ++ be32 0 ++ be32 0).length = 16
      ∧ (∃ img, Decode (ffHeader ++ be32 0 ++ be32 0) = .ret (some img, none)
          ∧ img.Rect = ⟨⟨0, 0⟩, ⟨0, 0⟩⟩ ∧ img.Pix = []
          ∧ ∀ x y, Point.In ⟨x, y⟩ img.Rect = false)
      ∧ (DecodeConfig (ffHeader ++ be32 0 ++ be32 0)).2 = none
      ∧ (DecodeConfig (ffHeader ++ be32 0 ++ be32 0)).1.Width = 0
      ∧ (DecodeConfig (ffHeader ++ be32 0 ++ be32 0)).1.Height = 0 :=
  C14_zero_size_image 0 0 (by decide) (by decide) (Or.inl rfl)

/-- C15: for square images the swapped traversal is unobservable. For every
`n` and every complete farbfeld file declaring width = height = `n`, the image
`Decode` returns has bounds `(0,0)-(n,n)` and at every `(x, y)` with
`x, y < n` the pixel decoded from record number `y*n + x`, i.e. it is the
row-major decode of the same bytes. -/
theorem C15_square_images_decode_row_major (n : Nat) (data : List Byte) (img : RGBA64)
    (hn : n < 2 ^ 32) (hdata : data.length = 8 * (n * n))
    (hdec : Decode (ffHeader ++ be32 n ++ be32 n ++ data) = .ret (some img, none)) :
    img.Rect = ⟨⟨0, 0⟩, ⟨n, n⟩⟩
      ∧ ∀ x y, x < n → y < n → img.RGBA64At x y = recordAt data (y * n + x) := by
  have en := Uint32_be32_self n hn
  rw [List.append_assoc, List.append_assoc] at hdec
  by_cases hfit : 8 * n * n ≤ maxAlloc
  · obtain ⟨d1, img2, hrun, _, hwf, hpix⟩ :=
      DecodeRun_ok (be32 n) (be32 n) data rfl rfl (by rw [en]; exact hfit)
        (by rw [en, hdata])
    rw [en] at hwf hpix
    rw [Decode_of_run hrun] at hdec
    have himg : img2 = img := by
      injection hdec with h1
      injection h1 with h2
      injection h2
    subst himg
    refine ⟨hwf.1, ?_⟩
    intro x y hx hy
    rw [hpix x y, if_pos ⟨hy, hx, hx, hy⟩]
  · have hrun := DecodeRun_abort (be32 n) (be32 n) data rfl rfl
      (by rw [en]; omega)
    rw [Decode_of_run_panic hrun] at hdec
    cases hdec

/-- C15 at the complete 2x2 file with four different records: the image
`Decode` returns holds record `y*2 + x` at `(x, y)` for all four pixels. -/
theorem C15_square_images_decode_row_major_witness :
    (⟨[0, 1, 0, 2, 0, 3, 0, 4, 0, 5, 0, 6, 0, 7, 0, 8, 0, 9, 0, 10, 0, 11, 0, 12,
        0, 13, 0, 14, 0, 15, 0, 16], 16, ⟨⟨0, 0⟩, ⟨2, 2⟩⟩⟩ : RGBA64).Rect = ⟨⟨0, 0⟩, ⟨2, 2⟩⟩
      ∧ ∀ x y, x < 2 → y < 2 →
          (⟨[0, 1, 0, 2, 0, 3, 0, 4, 0, 5, 0, 6, 0, 7, 0, 8, 0, 9, 0, 10, 0, 11, 0, 12,
              0, 13, 0, 14, 0, 15, 0, 16], 16, ⟨⟨0, 0⟩, ⟨2, 2⟩⟩⟩ : RGBA64).RGBA64At x y
            = recordAt [0, 1, 0, 2, 0, 3, 0, 4, 0, 5, 0, 6, 0, 7, 0, 8, 0, 9, 0, 10, 0, 11,
                0, 12, 0, 13, 0, 14, 0, 15, 0, 16] (y * 2 + x) :=
  C15_square_images_decode_row_major 2
    [0, 1, 0, 2, 0, 3, 0, 4, 0, 5, 0, 6, 0, 7, 0, 8, 0, 9, 0, 10, 0, 11, 0, 12,
      0, 13, 0, 14, 0, 15, 0, 16]
    ⟨[0, 1, 0, 2, 0, 3, 0, 4, 0, 5, 0, 6, 0, 7, 0, 8, 0, 9, 0, 10, 0, 11, 0, 12,
      0, 13, 0, 14, 0, 15, 0, 16], 16, ⟨⟨0, 0⟩, ⟨2, 2⟩⟩⟩
    (by decide) (by decide) (by decide)

/-- C16: scratch-buffer reuse never leaks bytes between fields. For two decoder
states that differ only in the contents of `tmp`, `checkHeader`, `parseWH` and
`parsePixel` return the same error and the same value (the dimensions stored
by `parseWH`, the colour returned by `parsePixel`) and leave the same bytes
unread; and whenever a read of `n` bytes succeeds, the first `n` bytes of
`tmp`, the only ones interpreted, are exactly the `n` bytes just read. -/
theorem C16_scratch_buffer_does_not_leak (d : decoder) (t : List Byte) :
    ((checkHeader { d with tmp := t }).2 = (checkHeader d).2
        ∧ (checkHeader { d with tmp := t }).1.r = (checkHeader d).1.r)
      ∧ ((parseWH { d with tmp := t }).2 = (parseWH d).2
        ∧ (parseWH { d with tmp := t }).1.width = (parseWH d).1.width
        ∧ (parseWH { d with tmp := t }).1.height = (parseWH d).1.height
        ∧ (parseWH { d with tmp := t }).1.r = (parseWH d).1.r)
      ∧ ((parsePixel { d with tmp := t }).2 = (parsePixel d).2
        ∧ (parsePixel { d with tmp := t }).1.r = (parsePixel d).1.r)
      ∧ (∀ n, (readFull d n).2 = none → (readFull d n).1.tmp.take n = d.r.take n) := by
  refine ⟨?_, ?_, ?_, ?_⟩
  · by_cases h8 : 8 ≤ d.r.length
    · rw [checkHeader_of_le d h8, checkHeader_of_le { d with tmp := t } h8]
      exact ⟨rfl, rfl⟩
    · have hlt : d.r.length < 8 := by omega
      rw [checkHeader_of_lt d hlt, checkHeader_of_lt { d with tmp := t } hlt]
      exact ⟨rfl, rfl⟩
  · by_cases h8 : 8 ≤ d.r.length
    · rw [parseWH_of_le d h8, parseWH_of_le { d with tmp := t } h8]
      exact ⟨rfl, rfl, rfl, rfl⟩
    · have hlt : d.r.length < 8 := by omega
      have hlt2 : ({ d with tmp := t } : decoder).r.length < 8 := hlt
      obtain ⟨a1, a2, a3⟩ := parseWH_fields_of_lt d hlt
      obtain ⟨b1, b2, b3⟩ := parseWH_fields_of_lt { d with tmp := t } hlt2
      rw [parseWH_of_lt d hlt, parseWH_of_lt { d with tmp := t } hlt2, a1, a2, a3, b1, b2, b3]
      exact ⟨rfl, rfl, rfl, rfl⟩
  · by_cases h8 : 8 ≤ d.r.length
    · rw [parsePixel_of_le d h8, parsePixel_of_le { d with tmp := t } h8]
      exact ⟨rfl, rfl⟩
    · have hlt : d.r.length < 8 := by omega
      rw [parsePixel_of_lt d hlt, parsePixel_of_lt { d with tmp := t } hlt]
      exact ⟨rfl, rfl⟩
  · intro n hn
    by_cases hle : n ≤ d.r.length
    · rw [readFull_of_le d n hle]
      exact List.take_left' (by rw [List.length_take]; omega)
    · rw [readFull_of_lt d n (by omega)] at hn
      cases hn

/-- C16 at a fresh decoder on the complete 1x1 file, a scratch buffer filled
with `0xFF`, and a read of 8 bytes. -/
theorem C16_scratch_buffer_does_not_leak_witness :
    (readFull (newDecoder (ffHeader ++ [0, 0, 0, 1, 0, 0, 0, 1, 0, 1, 0, 2, 0, 3, 0, 4]))
        8).1.tmp.take 8
      = (newDecoder (ffHeader ++ [0, 0, 0, 1, 0, 0, 0, 1, 0, 1, 0, 2, 0, 3, 0, 4])).r.take 8 :=
  (C16_scratch_buffer_does_not_leak
    (newDecoder (ffHeader ++ [0, 0, 0, 1, 0, 0, 0, 1, 0, 1, 0, 2, 0, 3, 0, 4]))
    (List.replicate (3 * 256) 255)).2.2.2 8 (by decide)

/-- C17: `Decode` and `DecodeConfig` agree on the dimensions. On every stream
on which `Decode` succeeds, `DecodeConfig` also succeeds, and the image that
`Decode` returns has bounds `(0,0)-(Width, Height)` for the `Width` and
`Height` that `DecodeConfig` reports. -/
theorem C17_decode_and_decode_config_agree (s : List Byte) (img : RGBA64)
    (hdec : Decode s = .ret (some img, none)) :
    (DecodeConfig s).2 = none
      ∧ img.Rect = ⟨⟨0, 0⟩, ⟨(DecodeConfig s).1.Width, (DecodeConfig s).1.Height⟩⟩
      ∧ img.Rect.Dx = (DecodeConfig s).1.Width
      ∧ img.Rect.Dy = (DecodeConfig s).1.Height := by
  by_cases hbig : s.take 8 = ffHeader ∧ 16 ≤ s.length
      ∧ maxAlloc < 8 * declaredWidth s * declaredHeight s
  · rw [Decode_of_huge s hbig.1 hbig.2.1 hbig.2.2] at hdec
    cases hdec
  by_cases hc : s.take 8 = ffHeader ∧ 16 ≤ s.length
      ∧ 16 + 8 * (declaredWidth s * declaredHeight s) ≤ s.length
  · obtain ⟨hm, h16, hdata⟩ := hc
    have hfit : 8 * declaredWidth s * declaredHeight s ≤ maxAlloc := by
      by_contra hno
      exact hbig ⟨hm, h16, by omega⟩
    obtain ⟨d, img2, hrun, _, hwf, _⟩ := DecodeRun_fit s hm h16 hfit hdata
    rw [Decode_of_run hrun] at hdec
    have himg : img2 = img := by
      injection hdec with h1
      injection h1 with h2
      injection h2
    subst himg
    rw [(DecodeConfigRun_of_dims s hm h16).2, hwf.1]
    exact ⟨rfl, rfl, rfl, rfl⟩
  · obtain ⟨e, he⟩ := Decode_of_incomplete s hbig hc
    rw [he] at hdec
    cases hdec

/-- C17 at the complete 2x1 file. -/
theorem C17_decode_and_decode_config_agree_witness :
    (DecodeConfig (ffHeader ++ [0, 0, 0, 2, 0, 0, 0, 1]
        ++ [0, 1, 0, 2, 0, 3, 0, 4, 0, 5, 0, 6, 0, 7, 0, 8])).2 = none
      ∧ (⟨[0, 1, 0, 2, 0, 3, 0, 4, 0, 0, 0, 0, 0, 0, 0, 0], 16, ⟨⟨0, 0⟩, ⟨2, 1⟩⟩⟩ : RGBA64).Rect
          = ⟨⟨0, 0⟩, ⟨(DecodeConfig (ffHeader ++ [0, 0, 0, 2, 0, 0, 0, 1]
                ++ [0, 1, 0, 2, 0, 3, 0, 4, 0, 5, 0, 6, 0, 7, 0, 8])).1.Width,
              (DecodeConfig (ffHeader ++ [0, 0, 0, 2, 0, 0, 0, 1]
                ++ [0, 1, 0, 2, 0, 3, 0, 4, 0, 5, 0, 6, 0, 7, 0, 8])).1.Height⟩⟩
      ∧ (⟨[0, 1, 0, 2, 0, 3, 0, 4, 0, 0, 0, 0, 0, 0, 0, 0], 16, ⟨⟨0, 0⟩, ⟨2, 1⟩⟩⟩ : RGBA64).Rect.Dx
          = (DecodeConfig (ffHeader ++ [0, 0, 0, 2, 0, 0, 0, 1]
                ++ [0, 1, 0, 2, 0, 3, 0, 4, 0, 5, 0, 6, 0, 7, 0, 8])).1.Width
      ∧ (⟨[0, 1, 0, 2, 0, 3, 0, 4, 0, 0, 0, 0, 0, 0, 0, 0], 16, ⟨⟨0, 0⟩, ⟨2, 1⟩⟩⟩ : RGBA64).Rect.Dy
          = (DecodeConfig (ffHeader ++ [0, 0, 0, 2, 0, 0, 0, 1]
                ++ [0, 1, 0, 2, 0, 3, 0, 4, 0, 5, 0, 6, 0, 7, 0, 8])).1.Height :=
  C17_decode_and_decode_config_agree
    (ffHeader ++ [0, 0, 0, 2, 0, 0, 0, 1] ++ [0, 1, 0, 2, 0, 3, 0, 4, 0, 5, 0, 6, 0, 7, 0, 8])
    ⟨[0, 1, 0, 2, 0, 3, 0, 4, 0, 0, 0, 0, 0, 0, 0, 0], 16, ⟨⟨0, 0⟩, ⟨2, 1⟩⟩⟩ (by decide)

/-- C18 (the code at the failing input): on the complete 1x1 file both entry
points succeed, `DecodeConfig` reports the colour model `color.RGBAModel`
(8 bits per channel), and the image `Decode` returns has the colour model
`color.RGBA64Model` (16 bits per channel): the two differ. -/
theorem C18_color_models_differ :
    Decode (ffHeader ++ [0, 0, 0, 1, 0, 0, 0, 1] ++ [0, 1, 0, 2, 0, 3, 0, 4])
        = .ret (some { Pix := [0, 1, 0, 2, 0, 3, 0, 4], Stride := 8
                       Rect := ⟨⟨0, 0⟩, ⟨1, 1⟩⟩ }, none)
      ∧ (DecodeConfig (ffHeader ++ [0, 0, 0, 1, 0, 0, 0, 1] ++ [0, 1, 0, 2, 0, 3, 0, 4])).2
          = none
      ∧ (DecodeConfig (ffHeader ++ [0, 0, 0, 1, 0, 0, 0, 1]
            ++ [0, 1, 0, 2, 0, 3, 0, 4])).1.ColorModel = some .RGBAModel
      ∧ RGBA64.ColorModel { Pix := [0, 1, 0, 2, 0, 3, 0, 4], Stride := 8
                            Rect := ⟨⟨0, 0⟩, ⟨1, 1⟩⟩ } = .RGBA64Model
      ∧ (DecodeConfig (ffHeader ++ [0, 0, 0, 1, 0, 0, 0, 1]
            ++ [0, 1, 0, 2, 0, 3, 0, 4])).1.ColorModel
          ≠ some (RGBA64.ColorModel { Pix := [0, 1, 0, 2, 0, 3, 0, 4], Stride := 8
                                      Rect := ⟨⟨0, 0⟩, ⟨1, 1⟩⟩ }) := by
  refine ⟨by decide, by decide, by decide, by decide, by decide⟩

/-- C19 (as stated, refuted): on the 16-byte stream made of the magic and the
dimensions `0xFFFFFFFF` by `0xFFFFFFFF`, `Decode` returns neither an image nor
an error: the allocation of the buffer panics before any pixel data is
read. -/
theorem C19_counterexample_allocation_panics :
    Decode (ffHeader ++ [255, 255, 255, 255] ++ [255, 255, 255, 255])
        = .panic "image: NewRGBA64 Rectangle has huge or negative dimensions"
      ∧ ¬ ∃ res, Decode (ffHeader ++ [255, 255, 255, 255] ++ [255, 255, 255, 255])
          = .ret res := by
  have hp : Decode (ffHeader ++ [255, 255, 255, 255] ++ [255, 255, 255, 255])
      = .panic "image: NewRGBA64 Rectangle has huge or negative dimensions" := by decide
  refine ⟨hp, ?_⟩
  rintro ⟨res, hres⟩
  rw [hp] at hres
  cases hres

/-- C19 (amended): `Decode` reports failure through the returned error except
for one panic. When the stream starts with the magic and has 8 dimension
bytes declaring `(w, h)` with `8*w*h > maxAlloc` (as `0xFFFFFFFF` by
`0xFFFFFFFF`), the allocation of the buffer panics (in `pixelBufferLength`
when `8*w*h ≥ 2^63`, in `make` otherwise), and it does so before any pixel data
is read: every stream with the same first 16 bytes, those 16 bytes alone
included, ends in the same panic. On every other stream `Decode` returns
either an image with a nil error or a nil image with an error. -/
theorem C19_decode_returns_or_panics_on_huge_dimensions (s : List Byte) :
    ((s.take 8 = ffHeader ∧ 16 ≤ s.length
          ∧ maxAlloc < 8 * declaredWidth s * declaredHeight s)
        → Decode s = .panic (allocPanic (8 * declaredWidth s * declaredHeight s))
          ∧ Decode (s.take 16)
              = .panic (allocPanic (8 * declaredWidth s * declaredHeight s))
          ∧ ∀ s2 : List Byte, s2.take 16 = s.take 16 →
              Decode s2 = .panic (allocPanic (8 * declaredWidth s * declaredHeight s)))
      ∧ (¬ (s.take 8 = ffHeader ∧ 16 ≤ s.length
          ∧ maxAlloc < 8 * declaredWidth s * declaredHeight s)
        → (∃ img, Decode s = .ret (some img, none)) ∨ (∃ e, Decode s = .ret (none, some e))) := by
  constructor
  · rintro ⟨hm, h16, hbig⟩
    have hall : ∀ s2 : List Byte, s2.take 16 = s.take 16 →
        Decode s2 = .panic (allocPanic (8 * declaredWidth s * declaredHeight s)) := by
      intro s2 h2
      obtain ⟨hm2, hl2, hw2, hh2⟩ := prefix_determines_header s s2 h2 hm h16
      have := Decode_of_huge s2 hm2 hl2 (by rw [hw2, hh2]; exact hbig)
      rw [hw2, hh2] at this
      exact this
    refine ⟨Decode_of_huge s hm h16 hbig, ?_, hall⟩
    exact hall (s.take 16) (by rw [List.take_take, Nat.min_self])
  · intro hnh
    by_cases hc : s.take 8 = ffHeader ∧ 16 ≤ s.length
        ∧ 16 + 8 * (declaredWidth s * declaredHeight s) ≤ s.length
    · obtain ⟨hm, h16, hdata⟩ := hc
      have hfit : 8 * declaredWidth s * declaredHeight s ≤ maxAlloc := by
        by_contra hno
        exact hnh ⟨hm, h16, by omega⟩
      obtain ⟨d, img, hrun, _⟩ := DecodeRun_fit s hm h16 hfit hdata
      exact Or.inl ⟨img, Decode_of_run hrun⟩
    · exact Or.inr (Decode_of_incomplete s hnh hc)

/-- C19 (amended) at the 24-byte stream declaring `0x40000000` by `0x3FFFFFFF`
followed by one pixel record (panic in `make`, also on its first 16 bytes),
and at the 16-byte stream declaring 1 by 1 (an error is returned). -/
theorem C19_decode_returns_or_panics_on_huge_dimensions_witness :
    (Decode (ffHeader ++ [0x40, 0, 0, 0] ++ [0x3f, 0xff, 0xff, 0xff]
          ++ [0, 1, 0, 2, 0, 3, 0, 4])
        = .panic (allocPanic (8 * declaredWidth (ffHeader ++ [0x40, 0, 0, 0]
              ++ [0x3f, 0xff, 0xff, 0xff] ++ [0, 1, 0, 2, 0, 3, 0, 4])
            * declaredHeight (ffHeader ++ [0x40, 0, 0, 0] ++ [0x3f, 0xff, 0xff, 0xff]
              ++ [0, 1, 0, 2, 0, 3, 0, 4])))
      ∧ Decode ((ffHeader ++ [0x40, 0, 0, 0] ++ [0x3f, 0xff, 0xff, 0xff]
          ++ [0, 1, 0, 2, 0, 3, 0, 4]).take 16)
        = .panic (allocPanic (8 * declaredWidth (ffHeader ++ [0x40, 0, 0, 0]
              ++ [0x3f, 0xff, 0xff, 0xff] ++ [0, 1, 0, 2, 0, 3, 0, 4])
            * declaredHeight (ffHeader ++ [0x40, 0, 0, 0] ++ [0x3f, 0xff, 0xff, 0xff]
              ++ [0, 1, 0, 2, 0, 3, 0, 4]))))
      ∧ allocPanic (8 * declaredWidth (ffHeader ++ [0x40, 0, 0, 0]
              ++ [0x3f, 0xff, 0xff, 0xff] ++ [0, 1, 0, 2, 0, 3, 0, 4])
            * declaredHeight (ffHeader ++ [0x40, 0, 0, 0] ++ [0x3f, 0xff, 0xff, 0xff]
              ++ [0, 1, 0, 2, 0, 3, 0, 4]))
          = "runtime error: makeslice: len out of range"
      ∧ ((∃ img, Decode (ffHeader ++ [0, 0, 0, 1] ++ [0, 0, 0, 1]) = .ret (some img, none))
          ∨ (∃ e, Decode (ffHeader ++ [0, 0, 0, 1] ++ [0, 0, 0, 1]) = .ret (none, some e))) :=
  ⟨⟨((C19_decode_returns_or_panics_on_huge_dimensions
        (ffHeader ++ [0x40, 0, 0, 0] ++ [0x3f, 0xff, 0xff, 0xff]
          ++ [0, 1, 0, 2, 0, 3, 0, 4])).1 (by decide)).1,
      ((C19_decode_returns_or_panics_on_huge_dimensions
        (ffHeader ++ [0x40, 0, 0, 0] ++ [0x3f, 0xff, 0xff, 0xff]
          ++ [0, 1, 0, 2, 0, 3, 0, 4])).1 (by decide)).2.1⟩,
    by decide,
    (C19_decode_returns_or_panics_on_huge_dimensions
      (ffHeader ++ [0, 0, 0, 1] ++ [0, 0, 0, 1])).2 (by decide)⟩

end ff
